import Mathlib

/-!
# EVM capability: method policies, templates and node-config patching

A shallow embedding of `system-tests/lib/cre/capabilities/evm/evm.go`.

Conventions of the embedding:
* `time.Duration` is an integer count of nanoseconds;
* `uint32` / `uint64` values are naturals, reduced modulo `2^32` / `2^64`
  where the source performs arithmetic on them;
* a Go `error` is its message (a `String`), `errors.Wrap e m` is `m ++ ": " ++ e`;
* a Go result pair `(v, err)` is a Lean pair `(Option v, Option String)`:
  `none` in the first component is the `nil` value, `none` in the second is
  the `nil` error;
* a Go `map[string]V` is an association list with pairwise distinct keys,
  assignment `m[k] = v` being `goMapSet`.
-/

namespace Evm

/-! ## Durations -/

/-- Go `time.Duration`: nanoseconds. -/
abbrev Duration := Int

/-- Go `time.Millisecond`. -/
def Millisecond : Duration := 1000000

/-- Go `time.Second`. -/
def Second : Duration := 1000 * Millisecond

/-- Protobuf `durationpb.Duration`: whole seconds and the remaining nanoseconds. -/
structure PbDuration where
  Seconds : Int
  Nanos : Int
deriving DecidableEq, Repr

/-- Library function `durationpb.New`: `secs := nanos / 1e9; nanos -= secs * 1e9`
(Go integer division truncates toward zero). -/
def durationpbNew (d : Duration) : PbDuration :=
  let secs := Int.tdiv d 1000000000
  { Seconds := secs, Nanos := d - secs * 1000000000 }

/-- Library method `(*durationpb.Duration).AsDuration` on values that fit in an `int64`. -/
def PbDuration.AsDuration (p : PbDuration) : Duration :=
  p.Seconds * 1000000000 + p.Nanos

/-! ## Package constants (evm.go, lines 43-50) -/

/-- The constant `flag = cre.EVMCapability`. -/
def flag : String := "evm"

def registrationRefresh : Duration := 20 * Second

def registrationExpiry : Duration := 60 * Second

/-- Block time + 1 second delta. -/
def deltaStage : Duration := 500 * Millisecond + 1 * Second

def requestTimeout : Duration := 30 * Second

/-! ## Errors and Go maps -/

/-- Go `errors.Wrap(err, msg)`: the message is `msg: err`. -/
def errorsWrap (err : String) (msg : String) : String :=
  msg ++ ": " ++ err

/-- Go map assignment `m[k] = v` on an association list: overwrite the entry
of `k` when present, add one otherwise. -/
def goMapSet {K V : Type} [DecidableEq K] (m : List (K × V)) (k : K) (v : V) : List (K × V) :=
  match m with
  | [] => [(k, v)]
  | (k', v') :: rest => if k' = k then (k, v) :: rest else (k', v') :: goMapSet rest k v

/-- Go map read `v, ok := m[k]`: `none` when the key is absent. -/
def goMapGet {K V : Type} [DecidableEq K] (m : List (K × V)) (k : K) : Option V :=
  match m with
  | [] => none
  | (k', v') :: rest => if k' = k then some v' else goMapGet rest k

/-- The key set of a Go map. -/
def goMapKeys {K V : Type} (m : List (K × V)) : List K :=
  m.map Prod.fst

/-! ## Capability method configs (protobuf messages of `capabilitiespb`) -/

inductive TransmissionSchedule where
  | AllAtOnce
  | OneAtATime
deriving DecidableEq, Repr

inductive RequestHasherType where
  | Simple
  | WriteReportExcludeSignatures
deriving DecidableEq, Repr

/-- Message `RemoteTriggerConfig`; duration fields are pointers, `MinResponsesToAggregate`
and `MaxBatchSize` are `uint32`. -/
structure RemoteTriggerConfig where
  RegistrationRefresh : Option PbDuration
  RegistrationExpiry : Option PbDuration
  MinResponsesToAggregate : Nat
  MessageExpiry : Option PbDuration
  MaxBatchSize : Nat
  BatchCollectionPeriod : Option PbDuration
deriving DecidableEq, Repr

/-- Message `RemoteExecutableConfig`; a field the source leaves out has its zero value
(`none` for a pointer). -/
structure RemoteExecutableConfig where
  TransmissionSchedule : TransmissionSchedule
  DeltaStage : Option PbDuration
  RequestTimeout : Option PbDuration
  ServerMaxParallelRequests : Nat
  RequestHasherType : RequestHasherType
deriving DecidableEq, Repr

/-- Message `CapabilityMethodConfig` with its `RemoteConfig` one-of. -/
inductive CapabilityMethodConfig where
  | RemoteTriggerConfig (c : RemoteTriggerConfig)
  | RemoteExecutableConfig (c : RemoteExecutableConfig)
deriving DecidableEq, Repr

/-- Type `cre.ChainCapabilityConfig`, as far as the source reads it. -/
structure ChainCapabilityConfig where
  EnabledChains : List Nat
deriving DecidableEq, Repr

/-- Type `cre.CapabilitiesAwareNodeSet`, as far as the source reads it.
`ChainCapabilities` is a map that may be nil, with pointer values that may be nil.
`MaxFaultyNodes` is the result `(uint32, error)` of the method of that name, whose
body lies outside this file: `.ok f` for a count `f`, `.error e` for a failure. -/
structure CapabilitiesAwareNodeSet where
  ChainCapabilities : Option (List (String × Option ChainCapabilityConfig))
  MaxFaultyNodes : Except String Nat

/-- Function `logTriggerConfig` (lines 137-155). `faultyNodes + 1` is a `uint32` addition. -/
def logTriggerConfig (nodeSetInput : CapabilitiesAwareNodeSet) :
    Option CapabilityMethodConfig × Option String :=
  match nodeSetInput.MaxFaultyNodes with
  | .error faultyErr => (none, some (errorsWrap faultyErr "failed to get faulty nodes"))
  | .ok faultyNodes =>
    (some (.RemoteTriggerConfig {
      RegistrationRefresh := some (durationpbNew registrationRefresh)
      RegistrationExpiry := some (durationpbNew registrationExpiry)
      MinResponsesToAggregate := (faultyNodes + 1) % 2 ^ 32
      MessageExpiry := some (durationpbNew (2 * registrationExpiry))
      MaxBatchSize := 25
      BatchCollectionPeriod := some (durationpbNew (200 * Millisecond)) }), none)

/-- Function `writeReportActionConfig` (lines 157-169). -/
def writeReportActionConfig : CapabilityMethodConfig :=
  .RemoteExecutableConfig {
    TransmissionSchedule := .OneAtATime
    DeltaStage := some (durationpbNew deltaStage)
    RequestTimeout := some (durationpbNew requestTimeout)
    ServerMaxParallelRequests := 10
    RequestHasherType := .WriteReportExcludeSignatures }

/-- Function `readActionConfig` (lines 171-182). -/
def readActionConfig : CapabilityMethodConfig :=
  .RemoteExecutableConfig {
    TransmissionSchedule := .AllAtOnce
    DeltaStage := none
    RequestTimeout := some (durationpbNew requestTimeout)
    ServerMaxParallelRequests := 10
    RequestHasherType := .Simple }

/-- The local `readActions` of `getEvmMethodConfigs` (lines 114-122). -/
def readActions : List String :=
  ["CallContract", "FilterLogs", "BalanceAt", "EstimateGas",
   "GetTransactionByHash", "GetTransactionReceipt", "HeaderByNumber"]

/-- Function `getEvmMethodConfigs` (lines 109-135): the read actions are entered first,
then the trigger config is built, and its failure returns `nil` and the wrapped error.
The map's values are pointers (`none` is the nil pointer). -/
def getEvmMethodConfigs (nodeSetInput : CapabilitiesAwareNodeSet) :
    Option (List (String × Option CapabilityMethodConfig)) × Option String :=
  let evmMethodConfigs : List (String × Option CapabilityMethodConfig) :=
    readActions.foldl (fun m action => goMapSet m action (some readActionConfig)) []
  match logTriggerConfig nodeSetInput with
  | (_, some err) => (none, some (errorsWrap err "failed get config for LogTrigger"))
  | (triggerConfig, none) =>
    let evmMethodConfigs := goMapSet evmMethodConfigs "LogTrigger" triggerConfig
    let evmMethodConfigs := goMapSet evmMethodConfigs "WriteReport" (some writeReportActionConfig)
    (some evmMethodConfigs, none)

/-! ## Node labels and addresses -/

/-- Type `cre.Label`. -/
structure Label where
  Key : String
  Value : String
deriving DecidableEq, Repr

/-- Type `common.Address` (20 bytes). -/
structure Address where
  Bytes : List Nat
deriving DecidableEq, Repr

/-- Function `findNodeEthAddressAddress` (lines 409-421). The helper
`node.AddressKeyFromSelector` and the library function `common.HexToAddress` are taken
as parameters. -/
def findNodeEthAddressAddress (AddressKeyFromSelector : Nat → String)
    (HexToAddress : String → Address) (chainSelector : Nat) (nodeLabels : List Label) :
    Option Address × Option String :=
  let expectedAddressKey := AddressKeyFromSelector chainSelector
  let rec loop : List Label → Option Address × Option String
    | [] => (none, some ("failed to get from address for chain " ++ toString chainSelector))
    | label :: rest =>
      if label.Key = expectedAddressKey then
        if label.Value = "" then
          (none, some (expectedAddressKey ++ " label value is empty"))
        else
          (some (HexToAddress label.Value), none)
      else loop rest
  loop nodeLabels

/-! ## The node configuration document -/

/-- A value of Go type `any` held by a configuration mapping. -/
inductive GoAny where
  | str (s : String)
  | uint (n : Nat)
  | nil
deriving DecidableEq, Repr

/-- Type `evmData` (lines 270-276); `WorkflowConfig` is a map that may be nil. -/
structure evmData where
  ChainID : Nat
  ChainSelector : Nat
  FromAddress : Address
  ForwarderAddress : String
  WorkflowConfig : Option (List (String × GoAny))
deriving DecidableEq, Repr

/-- Type `evmworkflow.Workflow`: the section `EVM.Workflow` of a chain entry, with the
six settings that `evmWorkflowConfigTemplate` (lines 450-457) writes, each optional. -/
structure Workflow where
  FromAddress : Option String
  ForwarderAddress : Option String
  GasLimitDefault : Option Nat
  TxAcceptanceState : Option Nat
  PollPeriod : Option String
  AcceptanceTimeout : Option String
deriving DecidableEq, Repr

/-- The section `Transactions` of a chain entry: the flag the source sets, and every
other setting of the section kept as it is in `Rest`. -/
structure Transactions where
  ForwardersEnabled : Option Bool
  Rest : List (String × String)
deriving DecidableEq, Repr

/-- One chain entry of `typedConfig.EVM`: its chain ID (a pointer to a big integer, nil
when the decoded entry has no `ChainID`), the two sections the source touches, and every
other setting of the entry kept as it is in `Rest`. -/
structure EVMConfig where
  ChainID : Option Int
  Workflow : Workflow
  Transactions : Transactions
  Rest : List (String × String)
deriving DecidableEq, Repr

/-- Type `corechainlink.Config`: the chain entries, and everything else in `Rest`. The
chain entries are taken as the decoder leaves them, one allocated entry for each `[[EVM]]`
table of the stored text, so that no element of `EVM` is itself a nil pointer. -/
structure Config where
  EVM : List EVMConfig
  Rest : List (String × String)
deriving DecidableEq, Repr

/-- A chain entry after lines 370-371: the workflow section replaced by `w` and
`Transactions.ForwardersEnabled` set to `true`. -/
def EVMConfig.patched (e : EVMConfig) (w : Evm.Workflow) : EVMConfig :=
  { e with
    Workflow := w
    Transactions := { e.Transactions with ForwardersEnabled := some true } }

/-- Two chain entries that agree in everything but the workflow section and the flag
`Transactions.ForwardersEnabled`. -/
def EVMConfig.agreesOutsidePatch (e0 e : EVMConfig) : Prop :=
  e.ChainID = e0.ChainID ∧ e.Rest = e0.Rest ∧ e.Transactions.Rest = e0.Transactions.Rest

/-- How a call can end other than by returning a value: with an error, or by a panic. -/
inductive Failure where
  | err (msg : String)
  | panic
deriving DecidableEq, Repr

/-- Helper `libc.MustSafeInt64` of package `system-tests/lib/conversions`, called on
line 363 and defined outside `evm.go`; modelled by the contract its name states: the
`uint64` as the same `int64`, and a panic (`none`) when it exceeds `math.MaxInt64`. -/
def MustSafeInt64 (input : Nat) : Option Int :=
  if input > 2 ^ 63 - 1 then none else some (input : Int)

/-- The test `chainIDIsEqual` of line 363 as a predicate on the chain entries: whether
the entry has the chain ID `id`. On an entry without a chain ID, where the source panics
(see `patchChainEntries`), it is false. -/
def chainIDIsEqual (id : Int) (evmChain : EVMConfig) : Bool :=
  decide (evmChain.ChainID = some id)

/-- The message of the error of line 379, for a chain ID and a node index. -/
def chainNotFoundError (chainID : Nat) (nodeIndex : Int) : String :=
  "failed to find EVM chain with ID " ++ toString chainID
    ++ " in the config of node index " ++ toString nodeIndex ++ " to add evm config"

/-- The message of the error of line 356, for a node index and the two lengths. -/
def notEnoughChainsError (nodeIndex : Int) (expected found : Nat) : String :=
  "not enough EVM chains configured in node index " ++ toString nodeIndex
    ++ " to add evm config. Expected at least " ++ toString expected
    ++ " chains, but found " ++ toString found

/-- The `INNER` loop (lines 360-376) for one fragment over the chain entries: the first
entry whose chain ID equals the fragment's gets the built workflow section and
`ForwardersEnabled = true`, and the loop breaks. The result holds `chainFound` and the
entries. `buildWorkflow` stands for `buildEVMWorkflowConfig`. The comparison of line 363
calls `Cmp` on the chain ID of the entry, which is a panic when that pointer is nil, after
`MustSafeInt64` has converted the chain ID of the fragment. -/
def patchChainEntries (buildWorkflow : evmData → Except String Workflow) (evmInput : evmData) :
    List EVMConfig → Except Failure (Bool × List EVMConfig)
  | [] => .ok (false, [])
  | evmChain :: rest =>
    match MustSafeInt64 evmInput.ChainID with
    | none => .error .panic
    | some id =>
      match evmChain.ChainID with
      | none => .error .panic
      | some chainID =>
        if chainID = id then
          match buildWorkflow evmInput with
          | .error evmErr =>
            .error (.err (errorsWrap evmErr "failed to build EVM workflow config"))
          | .ok evmWorkflow =>
            .ok (true, evmChain.patched evmWorkflow :: rest)
        else
          match patchChainEntries buildWorkflow evmInput rest with
          | .error f => .error f
          | .ok (chainFound, rest') => .ok (chainFound, evmChain :: rest')

/-- The loop over the fragments (lines 359-381). -/
def patchFragments (buildWorkflow : evmData → Except String Workflow) (nodeIndex : Int) :
    List evmData → List EVMConfig → Except Failure (List EVMConfig)
  | [], evm => .ok evm
  | evmInput :: data, evm =>
    match patchChainEntries buildWorkflow evmInput evm with
    | .error f => .error f
    | .ok (true, evm') => patchFragments buildWorkflow nodeIndex data evm'
    | .ok (false, _) =>
      .error (.err (chainNotFoundError evmInput.ChainID nodeIndex))

/-- The patch step of `transformNodeConfig` (lines 355-381): the length check, then the
loop over the fragments. -/
def patchDocument (buildWorkflow : evmData → Except String Workflow) (nodeIndex : Int)
    (data : List evmData) (typedConfig : Config) : Except Failure Config :=
  if typedConfig.EVM.length < data.length then
    .error (.err (notEnoughChainsError nodeIndex data.length typedConfig.EVM.length))
  else
    match patchFragments buildWorkflow nodeIndex data typedConfig.EVM with
    | .error f => .error f
    | .ok evm => .ok { typedConfig with EVM := evm }

/-- Go `int` addition on a 64-bit platform: the sum wrapped into the `int64` range. -/
def intAdd (a b : Int) : Int :=
  (a + b + 2 ^ 63) % 2 ^ 64 - 2 ^ 63

/-- The part of the node loop of `transformNodeConfig` that follows the assembly of the
fragments `data` (lines 343-388), for the node index `nodeIndex`. `existingConfigs` is
the caller's map (`cre.NodeIndexToConfigOverride`, from node index to TOML text), which
the source updates in place: the result is the map as the step leaves it, and the
failure on which `transformNodeConfig` returns `nil`, if any. `tomlUnmarshal` and
`tomlMarshal` stand for the TOML codec. -/
def transformNodeStep (tomlUnmarshal : String → Except String Config)
    (tomlMarshal : Config → Except String String)
    (buildWorkflow : evmData → Except String Workflow)
    (nodeIndex : Int) (data : List evmData) (existingConfigs : List (Int × String)) :
    List (Int × String) × Option Failure :=
  if (existingConfigs.length : Int) < intAdd nodeIndex 1 then
    (existingConfigs, some (.err ("missing config for node index " ++ toString nodeIndex)))
  else
    let currentConfig := (goMapGet existingConfigs nodeIndex).getD ""
    match tomlUnmarshal currentConfig with
    | .error unmarshallErr =>
      (existingConfigs, some (.err (errorsWrap unmarshallErr
        ("failed to unmarshal config for node index " ++ toString nodeIndex))))
    | .ok typedConfig =>
      match patchDocument buildWorkflow nodeIndex data typedConfig with
      | .error f => (existingConfigs, some f)
      | .ok typedConfig' =>
        match tomlMarshal typedConfig' with
        | .error mErr =>
          (existingConfigs, some (.err (errorsWrap mErr
            ("failed to marshal config for node index " ++ toString nodeIndex))))
        | .ok stringifiedConfig =>
          (goMapSet existingConfigs nodeIndex stringifiedConfig, none)

/-! ## The forwarder address -/

/-- Type `chainselectors.Chain`, as far as the source reads it. -/
structure Chain where
  Selector : Nat
deriving DecidableEq, Repr

/-- Type `deployment.TypeAndVersion`; the field `Type` of the source is `Type_` here. -/
structure TypeAndVersion where
  Type_ : String
  Version : String
deriving DecidableEq, Repr

/-- The contract type `keystone_changeset.KeystoneForwarder`. -/
def KeystoneForwarder : String := "KeystoneForwarder"

/-- Function `findForwarderAddress` (lines 394-407). `addressBook` is the method
`AddressesForChain` of the address book: for a chain selector, an error or the map from
address to contract type, given as the list of its entries in the order in which the
`range` statement of line 400 visits them (an order Go leaves unspecified).
`common.HexToAddress` is a parameter. -/
def findForwarderAddress (HexToAddress : String → Address) (chain : Chain)
    (addressBook : Nat → Except String (List (String × TypeAndVersion))) :
    Option Address × Option String :=
  match addressBook chain.Selector with
  | .error addErr => (none, some (errorsWrap addErr "failed to get addresses from address book"))
  | .ok addrsForChains =>
    let rec loop : List (String × TypeAndVersion) → Option Address × Option String
      | [] => (none, some ("failed to find forwarder address for chain "
          ++ toString chain.Selector))
      | (addr, addrValue) :: rest =>
        if addrValue.Type_ = KeystoneForwarder then (some (HexToAddress addr), none)
        else loop rest
    loop addrsForChains

/-! ## Templates -/

/-- A value of Go type `any` as `text/template` prints it (with `fmt.Fprint`): a string
as it is, an unsigned integer in decimal, and the nil value as `<no value>`. -/
def GoAny.print : GoAny → String
  | .str s => s
  | .uint n => toString n
  | .nil => "<no value>"

/-- The constant `configTemplate` (line 45); the braces of the Go text are written as
escapes. -/
def configTemplate : String :=
  "'\x7b\"chainId\":\x7b\x7b.ChainID\x7d\x7d,\"network\":\"\x7b\x7b.Netwo"
    ++ "rkFamily\x7d\x7d\",\"logTriggerPollInterval\":\x7b\x7b.LogTriggerPollI"
    ++ "nterval\x7d\x7d, \"creForwarderAddress\":\"\x7b\x7b.CreForwarderAddres"
    ++ "s\x7d\x7d\",\"receiverGasMinimum\":\x7b\x7b.ReceiverGasMinimum\x7d\x7d"
    ++ ",\"nodeAddress\":\"\x7b\x7b.NodeAddress\x7d\x7d\"\x7d'"

/-- The constant `evmWorkflowConfigTemplate` (lines 450-457). -/
def evmWorkflowConfigTemplate : String :=
  "\n\tFromAddress = '\x7b\x7b.FromAddress\x7d\x7d'\n\tForwarderAddress ="
    ++ " '\x7b\x7b.ForwarderAddress\x7d\x7d'\n\tGasLimitDefault = \x7b\x7b.Gas"
    ++ "LimitDefault\x7d\x7d\n\tTxAcceptanceState = \x7b\x7b.TxAcceptanceState"
    ++ "\x7d\x7d\n\tPollPeriod = '\x7b\x7b.PollPeriod\x7d\x7d'\n\tAcceptanceTi"
    ++ "meout = '\x7b\x7b.AcceptanceTimeout\x7d\x7d'\n"

/-- A parsed template: literal text, and actions `.Name` that print the field `Name`
of the data. -/
inductive TemplateNode where
  | text (s : String)
  | field (name : String)
deriving DecidableEq, Repr

/-- The field that an action names: the text of the action without blanks around it
is a dot followed by a non-empty name of letters, digits and underscores. -/
def templateField (action : List Char) : Option String :=
  let trimmed := ((action.dropWhile (fun c => c = ' ')).reverse.dropWhile
    (fun c => c = ' ')).reverse
  match trimmed with
  | '.' :: name =>
    if name ≠ [] ∧ name.all (fun c => c.isAlphanum || c = '_') then some (String.mk name)
    else none
  | _ => none

/-- The scan behind `templateParse`: `text` is the literal text read so far, `action`
the text read so far of the action that is open, if one is. -/
def templateScan : List Char → List Char → Option (List Char) →
    Except String (List TemplateNode)
  | [], text, none => .ok (if text = [] then [] else [.text (String.mk text)])
  | [], _, some _ => .error "unclosed action"
  | '\x7b' :: '\x7b' :: rest, text, none =>
    match templateScan rest [] (some []) with
    | .error e => .error e
    | .ok nodes => .ok (if text = [] then nodes else .text (String.mk text) :: nodes)
  | c :: rest, text, none => templateScan rest (text ++ [c]) none
  | '\x7d' :: '\x7d' :: rest, _, some action =>
    match templateField action with
    | none => .error "unsupported action"
    | some name =>
      match templateScan rest [] none with
      | .error e => .error e
      | .ok nodes => .ok (.field name :: nodes)
  | c :: rest, text, some action => templateScan rest text (some (action ++ [c]))

/-- Library call `template.New(name).Parse(text)` of `text/template`, for templates made
of literal text and actions of the form `.Name` between double braces (all that the two
templates of the source hold). -/
def templateParse (text : String) : Except String (List TemplateNode) :=
  templateScan text.data [] none

/-- What `text/template` prints for one node: the text, or the value of the field in the
data map, and `<no value>` when the map is nil or has no such key. -/
def templateNodeText (data : Option (List (String × GoAny))) : TemplateNode → String
  | .text s => s
  | .field name =>
    match data.bind (fun m => goMapGet m name) with
    | some v => v.print
    | none => "<no value>"

/-- Library call `tmpl.Execute(&buffer, data)` of `text/template` on a map of values,
and the text that the buffer then holds. On such data and a buffer the call returns no
error (a missing key is printed, not reported), so the error branches of lines 228 and
467 are not taken. -/
def templateExecute (tmpl : List TemplateNode) (data : Option (List (String × GoAny))) :
    String :=
  match tmpl with
  | [] => ""
  | node :: rest => templateNodeText data node ++ templateExecute rest data

/-- The names of the fields that a parsed template prints. -/
def templateFields : List TemplateNode → List String
  | [] => []
  | .text _ :: rest => templateFields rest
  | .field name :: rest => name :: templateFields rest

/-- Whether the characters `m` occur, in a row, in `l`. -/
def containsChars (m : List Char) : List Char → Bool
  | [] => m.isEmpty
  | c :: rest => m.isPrefixOf (c :: rest) || containsChars m rest

/-- The text that `text/template` leaves in place of a placeholder it could not
resolve. -/
def noValueMarker : String := "<no value>"

/-- The message of the unresolved-placeholder error, for the name of a template. -/
def unresolvedPlaceholderError (name : String) : String :=
  name ++ " template contains unresolved placeholders"

/-- Modelled from the spec: the helper `don.ValidateTemplateSubstitution`, whose body is
in package `system-tests/lib/cre/don`. Section 4.1: it "scans the rendered output for
residual, unresolved placeholder syntax (e.g., leftover markers); if any are found, fails
with `UnresolvedPlaceholderError` naming the capability/context". The leftover marker of
`text/template` is `<no value>`. `none` is the nil error. -/
def ValidateTemplateSubstitution (rendered : String) (name : String) : Option String :=
  if containsChars noValueMarker.data rendered.data then
    some (unresolvedPlaceholderError name)
  else none

/-- Function `buildEVMWorkflowConfig` (lines 459-482). `tomlUnmarshalWorkflow` stands for
`toml.Unmarshal` into an `evmworkflow.Workflow`. The result `.error e` is the return of
`nil` with the error `e`, the result `.ok w` the return of a pointer to `w` with no
error. -/
def buildEVMWorkflowConfig (tomlUnmarshalWorkflow : String → Except String Workflow)
    (evmInput : evmData) : Except String Workflow :=
  match templateParse evmWorkflowConfigTemplate with
  | .error tErr => .error (errorsWrap tErr "failed to parse evm workflow config template")
  | .ok tmpl =>
    let configStr := templateExecute tmpl evmInput.WorkflowConfig
    match ValidateTemplateSubstitution configStr flag with
    | some err => .error (errorsWrap err (flag ++ " template validation failed"))
    | none =>
      match tomlUnmarshalWorkflow configStr with
      | .error unmarshallErr =>
        .error (errorsWrap unmarshallErr
          ("failed to unmarshal EVM.Workflow config for chain " ++ toString evmInput.ChainID
            ++ ", err: " ++ unmarshallErr))
      | .ok evmWorkflow => .ok evmWorkflow

/-- Function `buildRuntimeValues` (lines 185-192). -/
def buildRuntimeValues (chainID : Nat) (networkFamily creForwarderAddress nodeAddress : String) :
    List (String × GoAny) :=
  [("ChainID", .uint chainID), ("NetworkFamily", .str networkFamily),
   ("CreForwarderAddress", .str creForwarderAddress), ("NodeAddress", .str nodeAddress)]

/-- The closure `generateJobSpec` (lines 196-239), without its logging. Parameters:
`EvmChainIdToChainSelector` is the table of package `chainselectors`; `addressesGet` is
the data-store lookup `Addresses().Get` for a selector, contract type, version and
qualifier, giving the address; `applyRuntimeValues` stands for `don.ApplyRuntimeValues`.
The result is the pair of the text and the error that the closure returns. -/
def generateJobSpec (EvmChainIdToChainSelector : Nat → Option Nat)
    (addressesGet : Nat → String → String → String → Except String String)
    (applyRuntimeValues : Option (List (String × GoAny)) → List (String × GoAny) →
      Option (List (String × GoAny)) × Option String)
    (chainID : Nat) (nodeAddress : String) (mergedConfig : Option (List (String × GoAny))) :
    String × Option String :=
  match EvmChainIdToChainSelector chainID with
  | none => ("", some ("chain selector not found for chainID: " ++ toString chainID))
  | some cs =>
    match addressesGet cs KeystoneForwarder "1.0.0" "" with
    | .error err => ("", some (errorsWrap err "failed to get CRE Forwarder address"))
    | .ok creForwarderAddress =>
      let runtimeFallbacks := buildRuntimeValues chainID "evm" creForwarderAddress nodeAddress
      match applyRuntimeValues mergedConfig runtimeFallbacks with
      | (_, some aErr) => ("", some (errorsWrap aErr "failed to apply runtime values"))
      | (templateData, none) =>
        match templateParse configTemplate with
        | .error err => ("", some (errorsWrap err ("failed to parse " ++ flag
            ++ " config template")))
        | .ok tmpl =>
          let configStr := templateExecute tmpl templateData
          match ValidateTemplateSubstitution configStr flag with
          | some err => ("", some (errorsWrap err (flag ++ " template validation failed")))
          | none => (configStr, none)

/-- Modelled from the spec: the helper `don.ApplyRuntimeValues`, whose body is in package
`system-tests/lib/cre/don`. Section 4.2: "For every key present in `runtimeOverrides`,
the merged result takes the override value, discarding any base value for that key. Keys
present only in `base` are passed through unchanged. Keys present only in
`runtimeOverrides` are added", and "No errors: merge is total". -/
def ApplyRuntimeValues {V : Type} (base runtimeOverrides : List (String × V)) :
    List (String × V) :=
  runtimeOverrides.foldl (fun merged kv => goMapSet merged kv.1 kv.2) base

/-- A parsed template in which no literal text holds the character `<`, and every field
is followed by literal text that starts with a character foreign to `<no value>` (or by
nothing): in its output the marker can only come from a field. -/
def templateGuarded : List TemplateNode → Bool
  | [] => true
  | .text s :: rest => !s.data.contains '<' && templateGuarded rest
  | .field _ :: rest =>
    (match rest with
      | [] => true
      | .text s :: _ =>
        (match s.data with
          | [] => false
          | c :: _ => !noValueMarker.data.contains c)
      | .field _ :: _ => false)
    && templateGuarded rest

/-! ## The call `transformNodeConfig` -/

/-- Type `cre.NodeMetadata`, as far as the source reads it. -/
structure NodeMetadata where
  Labels : List Label
deriving DecidableEq, Repr

/-- Type `cre.CapabilityConfig`, as far as the source reads it; `Config` is a map that
may be nil. -/
structure CapabilityConfig where
  Config : Option (List (String × GoAny))
deriving DecidableEq, Repr

/-- Type `cre.GenerateConfigsInput`, as far as the source reads it. `NodeSet` is a pointer
and `CapabilityConfigs` a map, either may be nil; `NodesMetadata` is
`DonMetadata.NodesMetadata`; `AddressBook` is the method `AddressesForChain` of the
address book, as in `findForwarderAddress`. -/
structure GenerateConfigsInput where
  NodeSet : Option CapabilitiesAwareNodeSet
  CapabilityConfigs : Option (List (String × CapabilityConfig))
  NodesMetadata : List NodeMetadata
  AddressBook : Nat → Except String (List (String × TypeAndVersion))

/-- The functions and constants of other packages that `transformNodeConfig` uses, taken
as parameters. `FindManyWithLabel` is `node.FindManyWithLabel` applied to the label of
worker nodes: the worker nodes among the nodes given, or an error. `IndexKey` is
`node.IndexKey`, `Atoi` is `strconv.Atoi`, `ChainByEvmChainID` the table of package
`chainselectors`, `AddressHex` the method `Hex` of `common.Address`,
`ResolveCapabilityForChain` the function of package `envconfig` (its second result and
its error), `applyRuntimeValues` is `don.ApplyRuntimeValues`, `tomlUnmarshal` and
`tomlMarshal` the TOML codec on `corechainlink.Config`, and `buildWorkflow` stands for
`buildEVMWorkflowConfig`. -/
structure Env where
  FindManyWithLabel : List NodeMetadata → Except String (List NodeMetadata)
  IndexKey : String
  Atoi : String → Except String Int
  ChainByEvmChainID : Nat → Option Chain
  AddressKeyFromSelector : Nat → String
  HexToAddress : String → Address
  AddressHex : Address → String
  ResolveCapabilityForChain : String → Option (List (String × Option ChainCapabilityConfig)) →
    Option (List (String × GoAny)) → Nat → Option (List (String × GoAny)) × Option String
  applyRuntimeValues : Option (List (String × GoAny)) → List (String × GoAny) →
    Option (List (String × GoAny)) × Option String
  tomlUnmarshal : String → Except String Config
  tomlMarshal : Config → Except String String
  buildWorkflow : evmData → Except String Workflow

/-- Function `mergeDefaultAndRuntimeConfigValues` (lines 423-448). The result is the pair
that the source returns: the fragment, and the error or `none`. -/
def mergeDefaultAndRuntimeConfigValues (env : Env) (data : evmData)
    (defaultCapabilityConfigs : Option (List (String × CapabilityConfig)))
    (nodeSetChainCapabilities : Option (List (String × Option ChainCapabilityConfig)))
    (chainID : Nat) : evmData × Option String :=
  match defaultCapabilityConfigs.bind (fun m => goMapGet m flag) with
  | some evmConfig =>
    match env.ResolveCapabilityForChain flag nodeSetChainCapabilities evmConfig.Config
        chainID with
    | (_, some rErr) =>
      (data, some (errorsWrap rErr ("failed to resolve evm config for chain "
        ++ toString chainID)))
    | (mergedConfig, none) =>
      let runtimeValues : List (String × GoAny) :=
        [("FromAddress", .str (env.AddressHex data.FromAddress)),
         ("ForwarderAddress", .str data.ForwarderAddress)]
      match env.applyRuntimeValues mergedConfig runtimeValues with
      | (workflowConfig, some mErr) =>
        ({ data with WorkflowConfig := workflowConfig },
          some (errorsWrap mErr "failed to apply runtime values"))
      | (workflowConfig, none) => ({ data with WorkflowConfig := workflowConfig }, none)
  | none => (data, none)

/-- The loop over the labels of a worker node (lines 298-307): `nodeIndex` starts at 0
and takes the value of every label of key `IndexKey` in turn. -/
def nodeIndexOf (env : Env) : List Label → Int → Except String Int
  | [], nodeIndex => .ok nodeIndex
  | label :: rest, nodeIndex =>
    if label.Key = env.IndexKey then
      match env.Atoi label.Value with
      | .error nErr => .error (errorsWrap nErr "failed to convert node index to int")
      | .ok n => nodeIndexOf env rest n
    else nodeIndexOf env rest nodeIndex

/-- The message of the error of line 314, for a chain ID. -/
def unknownChainError (chainID : Nat) : String :=
  "failed to find selector for chain ID " ++ toString chainID

/-- The message of the error of line 324, for a chain selector. -/
def forwarderNotFoundError (chainSelector : Nat) : String :=
  "failed to find forwarder address for chain " ++ toString chainSelector

/-- The message of the error of line 344, for a node index. -/
def missingConfigError (nodeIndex : Int) : String :=
  "missing config for node index " ++ toString nodeIndex

/-- The body of the loop over the enabled chains (lines 312-340) for the worker node at
position `nodeIdx` with the labels `nodeLabels`: the fragment of the chain `chainID`. A
nil address returned without an error would be dereferenced, which is a panic. -/
def assembleFragment (env : Env) (input : GenerateConfigsInput)
    (nodeSet : CapabilitiesAwareNodeSet) (nodeIdx : Nat) (nodeLabels : List Label)
    (chainID : Nat) : Except Failure evmData :=
  match env.ChainByEvmChainID chainID with
  | none => .error (.err (unknownChainError chainID))
  | some chain =>
    match findForwarderAddress env.HexToAddress chain input.AddressBook with
    | (_, some _) => .error (.err (forwarderNotFoundError chain.Selector))
    | (none, none) => .error .panic
    | (some forwarderAddress, none) =>
      match findNodeEthAddressAddress env.AddressKeyFromSelector env.HexToAddress
          chain.Selector nodeLabels with
      | (_, some addrErr) =>
        .error (.err (errorsWrap addrErr ("failed to get ETH address for chain "
          ++ toString chain.Selector ++ " for node at index " ++ toString nodeIdx)))
      | (none, none) => .error .panic
      | (some ethAddress, none) =>
        let evmDataValues : evmData :=
          { ChainID := chainID, ChainSelector := chain.Selector, FromAddress := ethAddress,
            ForwarderAddress := env.AddressHex forwarderAddress, WorkflowConfig := none }
        match mergeDefaultAndRuntimeConfigValues env evmDataValues input.CapabilityConfigs
            nodeSet.ChainCapabilities chainID with
        | (_, some mergeErr) =>
          .error (.err (errorsWrap mergeErr
            "failed to merge default and runtime evm config values"))
        | (merged, none) => .ok merged

/-- The loop over the enabled chains (lines 310-341): the fragments `data`, in the order
of the chains, or the failure of the first chain that fails. -/
def assembleFragments (env : Env) (input : GenerateConfigsInput)
    (nodeSet : CapabilitiesAwareNodeSet) (nodeIdx : Nat) (nodeLabels : List Label) :
    List Nat → Except Failure (List evmData)
  | [] => .ok []
  | chainID :: rest =>
    match assembleFragment env input nodeSet nodeIdx nodeLabels chainID with
    | .error f => .error f
    | .ok evmDataValues =>
      match assembleFragments env input nodeSet nodeIdx nodeLabels rest with
      | .error f => .error f
      | .ok data => .ok (evmDataValues :: data)

/-- The loop over the worker nodes (lines 297-389), from the node at position `nodeIdx`
on: the caller's map as the loop leaves it, and the failure that ends the call, if any. -/
def transformNodes (env : Env) (input : GenerateConfigsInput)
    (nodeSet : CapabilitiesAwareNodeSet) (cfg : ChainCapabilityConfig) :
    List NodeMetadata → Nat → List (Int × String) → List (Int × String) × Option Failure
  | [], _, existingConfigs => (existingConfigs, none)
  | node :: rest, nodeIdx, existingConfigs =>
    match nodeIndexOf env node.Labels 0 with
    | .error e => (existingConfigs, some (.err e))
    | .ok nodeIndex =>
      match assembleFragments env input nodeSet nodeIdx node.Labels cfg.EnabledChains with
      | .error f => (existingConfigs, some f)
      | .ok data =>
        match transformNodeStep env.tomlUnmarshal env.tomlMarshal env.buildWorkflow nodeIndex
            data existingConfigs with
        | (existingConfigs', some f) => (existingConfigs', some f)
        | (existingConfigs', none) =>
          transformNodes env input nodeSet cfg rest (nodeIdx + 1) existingConfigs'

/-- What a call of `transformNodeConfig` leaves: the map it returns (`none` for `nil`),
the failure it ends with, if any, and the contents of the caller's map `existingConfigs`
after the call (a Go map is shared with the caller, and line 388 writes to it). -/
structure TransformResult where
  returned : Option (List (Int × String))
  failure : Option Failure
  existingConfigs : List (Int × String)
deriving DecidableEq, Repr

/-- Function `transformNodeConfig` (lines 279-392). -/
def transformNodeConfig (env : Env) (input : GenerateConfigsInput)
    (existingConfigs : List (Int × String)) : TransformResult :=
  match input.NodeSet with
  | none => ⟨none, some (.err "node set input is nil"), existingConfigs⟩
  | some nodeSet =>
    match nodeSet.ChainCapabilities.bind (fun m => goMapGet m flag) with
    | none => ⟨some existingConfigs, none, existingConfigs⟩
    | some none => ⟨some existingConfigs, none, existingConfigs⟩
    | some (some cfg) =>
      match input.CapabilityConfigs with
      | none =>
        ⟨none, some (.err ("additional capabilities configs are nil, but are required to "
          ++ "configure the evm capability")), existingConfigs⟩
      | some _ =>
        match env.FindManyWithLabel input.NodesMetadata with
        | .error wErr =>
          ⟨none, some (.err (errorsWrap wErr "failed to find worker nodes")), existingConfigs⟩
        | .ok workflowNodeSet =>
          match transformNodes env input nodeSet cfg workflowNodeSet 0 existingConfigs with
          | (existingConfigs', some f) => ⟨none, some f, existingConfigs'⟩
          | (existingConfigs', none) => ⟨some existingConfigs', none, existingConfigs'⟩

/-! ## Registration with the capability registry -/

/-- Type `keystone_changeset.DONCapabilityWithConfig`, as far as the source sets it: the
two fields of `Capability`, and `Config.MethodConfigs` (a map that may be nil). -/
structure DONCapabilityWithConfig where
  LabelledName : String
  Version : String
  MethodConfigs : Option (List (String × Option CapabilityMethodConfig))
deriving DecidableEq, Repr

/-- The loop of `registerWithV1` over the enabled chains (lines 82-102), `capabilities`
being the list built so far. `SelectorFromChainId` is the function of package
`chainselectors`. -/
def registerChains (SelectorFromChainId : Nat → Except String Nat)
    (nodeSetInput : CapabilitiesAwareNodeSet) :
    List Nat → List DONCapabilityWithConfig →
    Option (List DONCapabilityWithConfig) × Option Failure
  | [], capabilities => (some capabilities, none)
  | chainID :: rest, capabilities =>
    match SelectorFromChainId chainID with
    | .error selectorErr =>
      (none, some (.err (errorsWrap selectorErr
        ("failed to get selector from chainID: " ++ toString chainID))))
    | .ok selector =>
      match getEvmMethodConfigs nodeSetInput with
      | (_, some err) =>
        (none, some (.err (errorsWrap err "there was an error getting EVM method configs")))
      | (evmMethodConfigs, none) =>
        registerChains SelectorFromChainId nodeSetInput rest
          (capabilities ++ [{
            LabelledName := "evm" ++ ":ChainSelector:" ++ toString selector
            Version := "1.0.0"
            MethodConfigs := evmMethodConfigs }])

/-- Function `registerWithV1` (lines 66-105); its first argument is not read. The map
`ChainCapabilities` holds pointers: line 78 tests that the key is present, and line 82
reads `EnabledChains` through the pointer, which is a panic when the pointer is nil. -/
def registerWithV1 (SelectorFromChainId : Nat → Except String Nat)
    (nodeSetInput : Option CapabilitiesAwareNodeSet) :
    Option (List DONCapabilityWithConfig) × Option Failure :=
  match nodeSetInput with
  | none => (none, some (.err "node set input is nil"))
  | some nodeSetInput =>
    match nodeSetInput.ChainCapabilities with
    | none => (none, none)
    | some chainCapabilities =>
      match goMapGet chainCapabilities flag with
      | none => (none, none)
      | some none => (none, some .panic)
      | some (some cfg) =>
        registerChains SelectorFromChainId nodeSetInput cfg.EnabledChains []

/-- The entry list with the first entry of chain ID `id` patched with the workflow
section `w`. -/
def patchFirst (id : Int) (w : Workflow) : List EVMConfig → List EVMConfig
  | [] => []
  | e :: rest =>
    if e.ChainID = some id then e.patched w :: rest else e :: patchFirst id w rest

/-- Whether the scan of the `INNER` loop for the chain ID `id` reaches an entry of that
chain ID: no entry before it has a nil chain ID. -/
def reachesChain (id : Int) : List EVMConfig → Bool
  | [] => false
  | e :: rest =>
    match e.ChainID with
    | none => false
    | some chainID => if chainID = id then true else reachesChain id rest

/-! ## Sample values, for the concrete instances below -/

/-- A workflow section with nothing set. -/
def sampleWorkflow : Workflow :=
  { FromAddress := none, ForwarderAddress := none, GasLimitDefault := none,
    TxAcceptanceState := none, PollPeriod := none, AcceptanceTimeout := none }

/-- A chain entry of chain ID `id` with nothing else set. -/
def sampleEntry (id : Int) : EVMConfig :=
  { ChainID := some id, Workflow := sampleWorkflow,
    Transactions := { ForwardersEnabled := none, Rest := [] }, Rest := [] }

/-- A fragment for chain ID `id`, with a forwarder address and no workflow values. -/
def sampleFragment (id : Nat) : evmData :=
  { ChainID := id, ChainSelector := id, FromAddress := { Bytes := [] },
    ForwarderAddress := "0xF0", WorkflowConfig := none }

/-- A stand-in for `buildEVMWorkflowConfig` that succeeds on every fragment. -/
def sampleBuild (d : evmData) : Except String Workflow :=
  .ok { sampleWorkflow with ForwarderAddress := some d.ForwarderAddress }

/-- A stand-in for `buildEVMWorkflowConfig` that fails on the fragment of chain ID 1. -/
def sampleBuildFailing (d : evmData) : Except String Workflow :=
  if d.ChainID = 1 then .error "template validation failed" else sampleBuild d

/-- Workflow values that hold every placeholder of `evmWorkflowConfigTemplate`, the
poll period being the text `<no value>`. -/
def sampleWorkflowValues : List (String × GoAny) :=
  [("FromAddress", .str "0xA1"), ("ForwarderAddress", .str "0xF0"),
   ("GasLimitDefault", .uint 400000), ("TxAcceptanceState", .uint 2),
   ("PollPeriod", .str "<no value>"), ("AcceptanceTimeout", .str "30s")]

/-- Sample functions of the other packages: every node is a worker node, the chain
selector of a chain ID is the ID plus 1000 and chain 999999 is unknown, a stored
configuration decodes to one chain entry of chain ID 1 and encodes to `patched`. -/
def sampleEnv : Env where
  FindManyWithLabel := fun nodes => .ok nodes
  IndexKey := "node_index"
  Atoi := fun s =>
    if s = "0" then .ok 0 else if s = "1" then .ok 1 else if s = "5" then .ok 5
    else .error "invalid syntax"
  ChainByEvmChainID := fun id => if id = 999999 then none else some { Selector := id + 1000 }
  AddressKeyFromSelector := fun sel => "evm_" ++ toString sel
  HexToAddress := fun s => { Bytes := s.data.map Char.toNat }
  AddressHex := fun a => String.mk (a.Bytes.map Char.ofNat)
  ResolveCapabilityForChain := fun _ _ config _ => (config, none)
  applyRuntimeValues := fun base runtime =>
    (some (ApplyRuntimeValues (base.getD []) runtime), none)
  tomlUnmarshal := fun s => if s = "" then .error "empty" else .ok ⟨[sampleEntry 1], []⟩
  tomlMarshal := fun _ => .ok "patched"
  buildWorkflow := sampleBuild

/-- A sample node set with the evm capability enabled for the chains given. -/
def sampleNodeSet (chains : List Nat) : CapabilitiesAwareNodeSet :=
  { ChainCapabilities := some [("evm", some { EnabledChains := chains })],
    MaxFaultyNodes := .ok 1 }

/-- A sample worker node with the index label given and an address for chain 1. -/
def sampleNode (index : String) : NodeMetadata :=
  { Labels := [⟨"type", "worker"⟩, ⟨"node_index", index⟩, ⟨"evm_1001", "0xA1"⟩] }

/-- A sample input: the node set and nodes given, default configs without an entry for
evm, and an address book with a forwarder for every chain but selector 1002. -/
def sampleInput (chains : List Nat) (nodes : List NodeMetadata) : GenerateConfigsInput :=
  { NodeSet := some (sampleNodeSet chains)
    CapabilityConfigs := some []
    NodesMetadata := nodes
    AddressBook := fun sel =>
      if sel = 1002 then .ok [("0x01", ⟨"OCR3Capability", "1.0.0"⟩)]
      else .ok [("0xF0", ⟨KeystoneForwarder, "1.0.0"⟩)] }

/-- A sample worker node with the index label given and addresses for the chains 1, 3
and 4. -/
def sampleNodeThreeChains (index : String) : NodeMetadata :=
  { Labels := [⟨"type", "worker"⟩, ⟨"node_index", index⟩, ⟨"evm_1001", "0xA1"⟩,
      ⟨"evm_1003", "0xA3"⟩, ⟨"evm_1004", "0xA4"⟩] }

/-- The sample functions with a codec that decodes every stored configuration to the two
chain entries of the chain IDs 1 and 3. -/
def sampleEnvTwoEntries : Env :=
  { sampleEnv with tomlUnmarshal := fun _ => .ok ⟨[sampleEntry 1, sampleEntry 3], []⟩ }

/-- A sample node set whose entry for the evm capability is a nil pointer. -/
def sampleNodeSetNilEntry : CapabilitiesAwareNodeSet :=
  { ChainCapabilities := some [("evm", none)], MaxFaultyNodes := .ok 1 }

/-! ## Method policies -/

theorem logTriggerConfig_ok (nodeSetInput : CapabilitiesAwareNodeSet) (f : Nat)
    (h : nodeSetInput.MaxFaultyNodes = .ok f) :
    logTriggerConfig nodeSetInput =
      (some (.RemoteTriggerConfig {
        RegistrationRefresh := some ⟨20, 0⟩
        RegistrationExpiry := some ⟨60, 0⟩
        MinResponsesToAggregate := (f + 1) % 2 ^ 32
        MessageExpiry := some ⟨120, 0⟩
        MaxBatchSize := 25
        BatchCollectionPeriod := some ⟨0, 200000000⟩ }), none) := by
  unfold logTriggerConfig
  rw [h]
  rfl

theorem logTriggerConfig_error (nodeSetInput : CapabilitiesAwareNodeSet) (e : String)
    (h : nodeSetInput.MaxFaultyNodes = .error e) :
    logTriggerConfig nodeSetInput = (none, some (errorsWrap e "failed to get faulty nodes")) := by
  unfold logTriggerConfig
  rw [h]

/-- C1 (counterexample). At the fault-tolerance count `4294967295` (the largest `uint32`)
the `uint32` sum `faultyNodes + 1` wraps: the policy built has
`MinResponsesToAggregate = 0`, not `f + 1`. -/
theorem logTriggerConfig_quorum_wraps :
    ∃ c, logTriggerConfig { ChainCapabilities := none, MaxFaultyNodes := .ok 4294967295 }
        = (some (.RemoteTriggerConfig c), none)
      ∧ c.MinResponsesToAggregate = 0
      ∧ c.MinResponsesToAggregate ≠ 4294967295 + 1 := by
  refine ⟨_, logTriggerConfig_ok _ 4294967295 rfl, ?_, ?_⟩ <;> decide

/-- C1 (amended). For every fault-tolerance count `f` that `MaxFaultyNodes` reports without
error, `logTriggerConfig` returns a log-trigger policy and no error, whose `MessageExpiry`
is twice its `RegistrationExpiry` (120 s and 60 s), and whose `MinResponsesToAggregate`
is `f + 1` whenever `f + 1` fits in a `uint32`. -/
theorem logTriggerConfig_quorum (nodeSetInput : CapabilitiesAwareNodeSet) (f : Nat)
    (h : nodeSetInput.MaxFaultyNodes = .ok f) :
    ∃ c e m, logTriggerConfig nodeSetInput = (some (.RemoteTriggerConfig c), none)
      ∧ (f + 1 < 2 ^ 32 → c.MinResponsesToAggregate = f + 1)
      ∧ c.RegistrationExpiry = some e ∧ c.MessageExpiry = some m
      ∧ e = durationpbNew registrationExpiry
      ∧ m = durationpbNew (2 * registrationExpiry)
      ∧ m.AsDuration = 2 * e.AsDuration := by
  refine ⟨_, ⟨60, 0⟩, ⟨120, 0⟩, logTriggerConfig_ok _ f h, ?_, rfl, rfl, ?_, ?_, ?_⟩
  · intro hf
    exact Nat.mod_eq_of_lt hf
  · decide
  · decide
  · decide

/-- C1 (witness): three tolerated faults give a minimum of four responses. -/
theorem logTriggerConfig_quorum_witness :
    ∃ c e m, logTriggerConfig { ChainCapabilities := none, MaxFaultyNodes := .ok 3 }
        = (some (.RemoteTriggerConfig c), none)
      ∧ (3 + 1 < 2 ^ 32 → c.MinResponsesToAggregate = 3 + 1)
      ∧ c.RegistrationExpiry = some e ∧ c.MessageExpiry = some m
      ∧ e = durationpbNew registrationExpiry
      ∧ m = durationpbNew (2 * registrationExpiry)
      ∧ m.AsDuration = 2 * e.AsDuration :=
  logTriggerConfig_quorum { ChainCapabilities := none, MaxFaultyNodes := .ok 3 } 3 rfl

/-- C2 (counterexample). The policy returned for the fault-tolerance count `4294967295`
has `MinResponsesToAggregate = 0`, so `MinResponsesToAggregate ≥ 1` fails for it. -/
theorem logTriggerConfig_invariant_fails :
    ∃ c, logTriggerConfig { ChainCapabilities := none, MaxFaultyNodes := .ok 4294967295 }
        = (some (.RemoteTriggerConfig c), none)
      ∧ ¬ (1 ≤ c.MinResponsesToAggregate) := by
  refine ⟨_, logTriggerConfig_ok _ 4294967295 rfl, ?_⟩
  decide

/-- C2 (amended). Every log-trigger policy that `logTriggerConfig` returns has
`RegistrationExpiry > RegistrationRefresh` and `MessageExpiry ≥ 2 × RegistrationExpiry`,
and has `MinResponsesToAggregate ≥ 1` unless the reported fault-tolerance count is the
largest `uint32` (the case in which `f + 1` does not fit). -/
theorem logTriggerConfig_invariant (nodeSetInput : CapabilitiesAwareNodeSet)
    (cfg : CapabilityMethodConfig)
    (h : logTriggerConfig nodeSetInput = (some cfg, none)) :
    ∃ c r e m, cfg = .RemoteTriggerConfig c
      ∧ c.RegistrationRefresh = some r ∧ c.RegistrationExpiry = some e
      ∧ c.MessageExpiry = some m
      ∧ r.AsDuration < e.AsDuration
      ∧ 2 * e.AsDuration ≤ m.AsDuration
      ∧ ((∀ f, nodeSetInput.MaxFaultyNodes = .ok f → f + 1 < 2 ^ 32) →
          1 ≤ c.MinResponsesToAggregate) := by
  cases hf : nodeSetInput.MaxFaultyNodes with
  | error e =>
    rw [logTriggerConfig_error _ e hf] at h
    simp at h
  | ok f =>
    rw [logTriggerConfig_ok _ f hf] at h
    simp only [Prod.mk.injEq, Option.some.injEq, and_true] at h
    subst h
    refine ⟨_, ⟨20, 0⟩, ⟨60, 0⟩, ⟨120, 0⟩, rfl, rfl, rfl, rfl, ?_, ?_, ?_⟩
    · decide
    · decide
    · intro hb
      have := hb f rfl
      show 1 ≤ (f + 1) % 2 ^ 32
      rw [Nat.mod_eq_of_lt this]
      omega

/-- C2 (witness): the policy built for one tolerated fault. -/
theorem logTriggerConfig_invariant_witness :
    ∃ c r e m, (CapabilityMethodConfig.RemoteTriggerConfig
        ⟨some ⟨20, 0⟩, some ⟨60, 0⟩, 2, some ⟨120, 0⟩, 25, some ⟨0, 200000000⟩⟩)
          = .RemoteTriggerConfig c
      ∧ c.RegistrationRefresh = some r ∧ c.RegistrationExpiry = some e
      ∧ c.MessageExpiry = some m
      ∧ r.AsDuration < e.AsDuration
      ∧ 2 * e.AsDuration ≤ m.AsDuration
      ∧ ((∀ f, (Except.ok 1 : Except String Nat) = .ok f → f + 1 < 2 ^ 32) →
          1 ≤ c.MinResponsesToAggregate) :=
  logTriggerConfig_invariant { ChainCapabilities := none, MaxFaultyNodes := .ok 1 } _
    (logTriggerConfig_ok _ 1 rfl)

/-- The map that `getEvmMethodConfigs` builds when the fault-tolerance count is `f`. -/
theorem getEvmMethodConfigs_ok (nodeSetInput : CapabilitiesAwareNodeSet) (f : Nat)
    (h : nodeSetInput.MaxFaultyNodes = .ok f) :
    getEvmMethodConfigs nodeSetInput =
      (some [("CallContract", some readActionConfig), ("FilterLogs", some readActionConfig),
        ("BalanceAt", some readActionConfig), ("EstimateGas", some readActionConfig),
        ("GetTransactionByHash", some readActionConfig),
        ("GetTransactionReceipt", some readActionConfig),
        ("HeaderByNumber", some readActionConfig),
        ("LogTrigger", (logTriggerConfig nodeSetInput).1),
        ("WriteReport", some writeReportActionConfig)], none) := by
  unfold getEvmMethodConfigs
  rw [logTriggerConfig_ok _ f h]
  simp [readActions, goMapSet]

/-- The result of `getEvmMethodConfigs` when the fault-tolerance count has the error `e`. -/
theorem getEvmMethodConfigs_error (nodeSetInput : CapabilitiesAwareNodeSet) (e : String)
    (h : nodeSetInput.MaxFaultyNodes = .error e) :
    getEvmMethodConfigs nodeSetInput =
      (none, some (errorsWrap (errorsWrap e "failed to get faulty nodes")
        "failed get config for LogTrigger")) := by
  unfold getEvmMethodConfigs
  rw [logTriggerConfig_error _ e h]

/-- C3. `getEvmMethodConfigs` returns an error exactly when `MaxFaultyNodes` does; with an
error it returns the nil map; without one it returns a map whose keys are pairwise
distinct and are exactly the seven read actions, `LogTrigger` and `WriteReport`. -/
theorem getEvmMethodConfigs_atomic (nodeSetInput : CapabilitiesAwareNodeSet) :
    ((getEvmMethodConfigs nodeSetInput).2 ≠ none ↔
        ∃ e, nodeSetInput.MaxFaultyNodes = .error e)
      ∧ ((getEvmMethodConfigs nodeSetInput).2 ≠ none →
          (getEvmMethodConfigs nodeSetInput).1 = none)
      ∧ ((getEvmMethodConfigs nodeSetInput).2 = none →
          ∃ m, (getEvmMethodConfigs nodeSetInput).1 = some m
            ∧ (goMapKeys m).Nodup
            ∧ ∀ k, k ∈ goMapKeys m ↔
                k ∈ ["CallContract", "FilterLogs", "BalanceAt", "EstimateGas",
                  "GetTransactionByHash", "GetTransactionReceipt", "HeaderByNumber",
                  "LogTrigger", "WriteReport"]) := by
  cases hf : nodeSetInput.MaxFaultyNodes with
  | error e =>
    rw [getEvmMethodConfigs_error _ e hf]
    simp
  | ok f =>
    rw [getEvmMethodConfigs_ok _ f hf]
    refine ⟨by simp, by simp, fun _ => ⟨_, rfl, ?_, ?_⟩⟩
    · simp [goMapKeys]
    · intro k
      simp [goMapKeys]

/-- C4. In a map that `getEvmMethodConfigs` returns, each of the seven read actions has the
read policy: `AllAtOnce`, the `Simple` hasher, a request timeout of 30 s and at most 10
parallel requests (and no `DeltaStage`). -/
theorem getEvmMethodConfigs_readActions (nodeSetInput : CapabilitiesAwareNodeSet)
    (m : List (String × Option CapabilityMethodConfig)) (action : String)
    (h : getEvmMethodConfigs nodeSetInput = (some m, none))
    (ha : action ∈ ["CallContract", "FilterLogs", "BalanceAt", "EstimateGas",
      "GetTransactionByHash", "GetTransactionReceipt", "HeaderByNumber"]) :
    ∃ c t, goMapGet m action = some (some (.RemoteExecutableConfig c))
      ∧ c.TransmissionSchedule = .AllAtOnce
      ∧ c.RequestHasherType = .Simple
      ∧ c.RequestTimeout = some t ∧ t.AsDuration = 30 * Second
      ∧ c.ServerMaxParallelRequests = 10
      ∧ c.DeltaStage = none := by
  cases hf : nodeSetInput.MaxFaultyNodes with
  | error e =>
    rw [getEvmMethodConfigs_error _ e hf] at h
    simp at h
  | ok f =>
    rw [getEvmMethodConfigs_ok _ f hf] at h
    simp only [Prod.mk.injEq, Option.some.injEq, and_true] at h
    subst h
    refine ⟨⟨.AllAtOnce, none, some ⟨30, 0⟩, 10, .Simple⟩, ⟨30, 0⟩, ?_, rfl, rfl, rfl, by decide,
      rfl, rfl⟩
    simp only [List.mem_cons, List.mem_singleton, List.not_mem_nil, or_false] at ha
    rcases ha with h | h | h | h | h | h | h <;> subst h <;> rfl

/-- C4 (witness): the entry of `BalanceAt` for a node set tolerating one fault. -/
theorem getEvmMethodConfigs_readActions_witness :
    ∃ c t, goMapGet
        [("CallContract", some readActionConfig), ("FilterLogs", some readActionConfig),
          ("BalanceAt", some readActionConfig), ("EstimateGas", some readActionConfig),
          ("GetTransactionByHash", some readActionConfig),
          ("GetTransactionReceipt", some readActionConfig),
          ("HeaderByNumber", some readActionConfig),
          ("LogTrigger", (logTriggerConfig ⟨none, .ok 1⟩).1),
          ("WriteReport", some writeReportActionConfig)] "BalanceAt"
        = some (some (.RemoteExecutableConfig c))
      ∧ c.TransmissionSchedule = .AllAtOnce
      ∧ c.RequestHasherType = .Simple
      ∧ c.RequestTimeout = some t ∧ t.AsDuration = 30 * Second
      ∧ c.ServerMaxParallelRequests = 10
      ∧ c.DeltaStage = none :=
  getEvmMethodConfigs_readActions ⟨none, .ok 1⟩ _ "BalanceAt"
    (getEvmMethodConfigs_ok _ 1 rfl) (by decide)

/-- C5. The policy of `writeReportActionConfig` has `DeltaStage` of 1 s and 500 000 000 ns,
which is `deltaStage`, 500 ms plus 1 s, 1.5 s exactly; it transmits `OneAtATime` and
hashes requests with `WriteReportExcludeSignatures`. -/
theorem writeReportActionConfig_deltaStage :
    ∃ c d, writeReportActionConfig = .RemoteExecutableConfig c
      ∧ c.DeltaStage = some d
      ∧ d = ⟨1, 500000000⟩
      ∧ d.AsDuration = deltaStage
      ∧ deltaStage = 500 * Millisecond + 1 * Second
      ∧ d.AsDuration = 1500000000
      ∧ 2 * d.AsDuration = 3 * Second
      ∧ c.TransmissionSchedule = .OneAtATime
      ∧ c.RequestHasherType = .WriteReportExcludeSignatures := by
  refine ⟨_, ⟨1, 500000000⟩, rfl, ?_, rfl, ?_, rfl, ?_, ?_, rfl, rfl⟩ <;> decide

/-! ## Node addresses -/

/-- The loop of `findNodeEthAddressAddress`, by the first label that carries the key. -/
theorem findNodeEthAddressAddress_loop (expectedAddressKey : String)
    (HexToAddress : String → Address) (chainSelector : Nat) (nodeLabels : List Label) :
    findNodeEthAddressAddress.loop HexToAddress chainSelector expectedAddressKey nodeLabels =
      match nodeLabels.find? (fun l => decide (l.Key = expectedAddressKey)) with
      | none => (none, some ("failed to get from address for chain " ++ toString chainSelector))
      | some label =>
        if label.Value = "" then (none, some (expectedAddressKey ++ " label value is empty"))
        else (some (HexToAddress label.Value), none) := by
  induction nodeLabels with
  | nil => rfl
  | cons label rest ih =>
    unfold findNodeEthAddressAddress.loop
    by_cases hk : label.Key = expectedAddressKey
    · simp [hk]
    · simp [hk, ih]

/-- C10. `findNodeEthAddressAddress` returns an error exactly when no label carries the
address key of the chain selector or the first label that carries it has an empty value;
with an error it returns the nil address; otherwise it returns, with no error, the address
parsed by `HexToAddress` from the value of the first label that carries the key. -/
theorem findNodeEthAddressAddress_spec (AddressKeyFromSelector : Nat → String)
    (HexToAddress : String → Address) (chainSelector : Nat) (nodeLabels : List Label) :
    ((findNodeEthAddressAddress AddressKeyFromSelector HexToAddress chainSelector
          nodeLabels).2 ≠ none ↔
        ((∀ l ∈ nodeLabels, l.Key ≠ AddressKeyFromSelector chainSelector) ∨
          ∃ l, nodeLabels.find? (fun l => decide (l.Key = AddressKeyFromSelector chainSelector))
              = some l ∧ l.Value = ""))
      ∧ ((findNodeEthAddressAddress AddressKeyFromSelector HexToAddress chainSelector
            nodeLabels).2 ≠ none →
          (findNodeEthAddressAddress AddressKeyFromSelector HexToAddress chainSelector
            nodeLabels).1 = none)
      ∧ (∀ l, nodeLabels.find? (fun l => decide (l.Key = AddressKeyFromSelector chainSelector))
              = some l → l.Value ≠ "" →
          findNodeEthAddressAddress AddressKeyFromSelector HexToAddress chainSelector nodeLabels
            = (some (HexToAddress l.Value), none)) := by
  have hloop := findNodeEthAddressAddress_loop (AddressKeyFromSelector chainSelector)
    HexToAddress chainSelector nodeLabels
  unfold findNodeEthAddressAddress
  simp only []
  rw [hloop]
  cases hfind : nodeLabels.find? (fun l => decide (l.Key = AddressKeyFromSelector chainSelector)) with
  | none =>
    have hall : ∀ l ∈ nodeLabels, l.Key ≠ AddressKeyFromSelector chainSelector := by
      intro l hl
      have := List.find?_eq_none.mp hfind l hl
      simpa using this
    refine ⟨by simpa using hall, by simp, by simp⟩
  | some label =>
    have hmem : label ∈ nodeLabels := List.mem_of_find?_eq_some hfind
    have hkey : label.Key = AddressKeyFromSelector chainSelector := by
      have := List.find?_some hfind
      simpa using this
    by_cases hv : label.Value = ""
    · refine ⟨?_, by simp [hv], ?_⟩
      · simp only [hv, if_true, ne_eq, reduceCtorEq, not_false_eq_true, true_iff]
        exact Or.inr ⟨label, rfl, hv⟩
      · intro l hl hne
        cases hl
        exact absurd hv hne
    · refine ⟨?_, by simp [hv], ?_⟩
      · simp only [hv, if_false, ne_eq, not_true_eq_false, false_iff, not_or]
        refine ⟨fun hall => hall label hmem hkey, ?_⟩
        rintro ⟨l, hl, hl'⟩
        cases hl
        exact hv hl'
      · intro l hl _
        cases hl
        simp [hv]

/-! ## The patch step: one fragment -/

theorem MustSafeInt64_some {n : Nat} {id : Int} (h : MustSafeInt64 n = some id) :
    id = (n : Int) := by
  unfold MustSafeInt64 at h
  split at h
  · simp at h
  · simpa using h.symm

theorem MustSafeInt64_of_le {n : Nat} (h : n ≤ 2 ^ 63 - 1) :
    MustSafeInt64 n = some (n : Int) := by
  unfold MustSafeInt64
  rw [if_neg (by omega)]

/-- Inversion of a run of the `INNER` loop that ends without failure, at the first entry. -/
theorem patchChainEntries_cons_ok {buildWorkflow : evmData → Except String Workflow}
    {d : evmData} {e : EVMConfig} {rest evm' : List EVMConfig} {b : Bool}
    (h : patchChainEntries buildWorkflow d (e :: rest) = .ok (b, evm')) :
    (e.ChainID = some (d.ChainID : Int) ∧ b = true ∧
        ∃ w, buildWorkflow d = .ok w ∧ evm' = e.patched w :: rest) ∨
      (e.ChainID ≠ some (d.ChainID : Int) ∧ e.ChainID ≠ none ∧
        ∃ rest', patchChainEntries buildWorkflow d rest = .ok (b, rest') ∧ evm' = e :: rest') := by
  unfold patchChainEntries at h
  cases hm : MustSafeInt64 d.ChainID with
  | none => simp [hm] at h
  | some id =>
    have hid := MustSafeInt64_some hm
    subst hid
    simp only [hm] at h
    cases hc : e.ChainID with
    | none => simp [hc] at h
    | some c =>
      simp only [hc] at h
      by_cases he : c = (d.ChainID : Int)
      · left
        simp only [he, if_true] at h
        cases hb : buildWorkflow d with
        | error err => simp [hb] at h
        | ok w =>
          simp only [hb, Except.ok.injEq, Prod.mk.injEq] at h
          exact ⟨by rw [he], h.1.symm, w, rfl, h.2.symm⟩
      · right
        simp only [he, if_false] at h
        cases hr : patchChainEntries buildWorkflow d rest with
        | error f => simp [hr] at h
        | ok p =>
          obtain ⟨b', rest'⟩ := p
          simp only [hr, Except.ok.injEq, Prod.mk.injEq] at h
          exact ⟨by simpa using he, by simp, rest', by rw [h.1], h.2.symm⟩

theorem patchChainEntries_nil_ok {buildWorkflow : evmData → Except String Workflow}
    {d : evmData} {evm' : List EVMConfig} {b : Bool}
    (h : patchChainEntries buildWorkflow d [] = .ok (b, evm')) : b = false ∧ evm' = [] := by
  unfold patchChainEntries at h
  simp only [Except.ok.injEq, Prod.mk.injEq] at h
  exact ⟨h.1.symm, h.2.symm⟩

/-- The `INNER` loop keeps the chain IDs of the entries, in order. -/
theorem patchChainEntries_ids {buildWorkflow : evmData → Except String Workflow}
    {d : evmData} : ∀ {evm evm' : List EVMConfig} {b : Bool},
    patchChainEntries buildWorkflow d evm = .ok (b, evm') →
    evm'.map (fun e => e.ChainID) = evm.map (fun e => e.ChainID) := by
  intro evm
  induction evm with
  | nil =>
    intro evm' b h
    rw [(patchChainEntries_nil_ok h).2]
  | cons e rest ih =>
    intro evm' b h
    rcases patchChainEntries_cons_ok h with ⟨_, _, w, _, rfl⟩ | ⟨_, _, rest', hr, rfl⟩
    · simp [EVMConfig.patched]
    · simp [ih hr]

/-- The `INNER` loop reports `chainFound` exactly when some entry has the fragment's
chain ID. -/
theorem patchChainEntries_found {buildWorkflow : evmData → Except String Workflow}
    {d : evmData} : ∀ {evm evm' : List EVMConfig} {b : Bool},
    patchChainEntries buildWorkflow d evm = .ok (b, evm') →
    (b = true ↔ some (d.ChainID : Int) ∈ evm.map (fun e => e.ChainID)) := by
  intro evm
  induction evm with
  | nil =>
    intro evm' b h
    simp [(patchChainEntries_nil_ok h).1]
  | cons e rest ih =>
    intro evm' b h
    rcases patchChainEntries_cons_ok h with ⟨he, hb, _⟩ | ⟨he, _, rest', hr, _⟩
    · simp [hb, he]
    · rw [ih hr]
      simp only [List.map_cons, List.mem_cons]
      constructor
      · exact Or.inr
      · rintro (h1 | h1)
        · exact absurd h1.symm he
        · exact h1

/-- The `INNER` loop leaves the first entry of any other chain ID as it is. -/
theorem patchChainEntries_find_other {buildWorkflow : evmData → Except String Workflow}
    {d : evmData} {id : Int} (hid : id ≠ (d.ChainID : Int)) :
    ∀ {evm evm' : List EVMConfig} {b : Bool},
    patchChainEntries buildWorkflow d evm = .ok (b, evm') →
    evm'.find? (chainIDIsEqual id) = evm.find? (chainIDIsEqual id) := by
  intro evm
  induction evm with
  | nil =>
    intro evm' b h
    rw [(patchChainEntries_nil_ok h).2]
  | cons e rest ih =>
    intro evm' b h
    rcases patchChainEntries_cons_ok h with ⟨he, _, w, _, rfl⟩ | ⟨_, _, rest', hr, rfl⟩
    · have h1 : chainIDIsEqual id (e.patched w) = false := by
        simp [chainIDIsEqual, EVMConfig.patched, he, Ne.symm hid]
      have h2 : chainIDIsEqual id e = false := by
        simp [chainIDIsEqual, he, Ne.symm hid]
      simp [List.find?, h1, h2]
    · simp only [List.find?]
      rw [ih hr]

/-- When the `INNER` loop finds the chain, the first entry of the fragment's chain ID
is the one patched, with the workflow section built from the fragment. -/
theorem patchChainEntries_find_own {buildWorkflow : evmData → Except String Workflow}
    {d : evmData} : ∀ {evm evm' : List EVMConfig},
    patchChainEntries buildWorkflow d evm = .ok (true, evm') →
    ∃ e w, evm.find? (chainIDIsEqual d.ChainID) = some e ∧ buildWorkflow d = .ok w
      ∧ evm'.find? (chainIDIsEqual d.ChainID) = some (e.patched w) := by
  intro evm
  induction evm with
  | nil =>
    intro evm' h
    simpa using (patchChainEntries_nil_ok h).1
  | cons e rest ih =>
    intro evm' h
    rcases patchChainEntries_cons_ok h with ⟨he, _, w, hw, rfl⟩ | ⟨he, _, rest', hr, rfl⟩
    · refine ⟨e, w, ?_, hw, ?_⟩
      · simp [List.find?, chainIDIsEqual, he]
      · simp [List.find?, chainIDIsEqual, EVMConfig.patched, he]
    · obtain ⟨e0, w, h1, h2, h3⟩ := ih hr
      refine ⟨e0, w, ?_, h2, ?_⟩
      · simp [List.find?, chainIDIsEqual, he]
        exact h1
      · simp [List.find?, chainIDIsEqual, he]
        exact h3

/-- The `INNER` loop changes, in any entry, at most the workflow section and the flag. -/
theorem patchChainEntries_agrees {buildWorkflow : evmData → Except String Workflow}
    {d : evmData} : ∀ {evm evm' : List EVMConfig} {b : Bool},
    patchChainEntries buildWorkflow d evm = .ok (b, evm') →
    ∀ (i : Nat) (e0 : EVMConfig), evm[i]? = some e0 →
      ∃ e, evm'[i]? = some e ∧ e0.agreesOutsidePatch e := by
  intro evm
  induction evm with
  | nil =>
    intro evm' b _ i e0 hi
    simp at hi
  | cons e rest ih =>
    intro evm' b h i e0 hi
    rcases patchChainEntries_cons_ok h with ⟨_, _, w, _, rfl⟩ | ⟨_, _, rest', hr, rfl⟩
    · cases i with
      | zero =>
        simp only [List.getElem?_cons_zero, Option.some.injEq] at hi
        subst hi
        exact ⟨e.patched w, by simp, rfl, rfl, rfl⟩
      | succ j =>
        simp only [List.getElem?_cons_succ] at hi
        exact ⟨e0, by simpa using hi, rfl, rfl, rfl⟩
    · cases i with
      | zero =>
        simp only [List.getElem?_cons_zero, Option.some.injEq] at hi
        subst hi
        exact ⟨e, by simp, rfl, rfl, rfl⟩
      | succ j =>
        simp only [List.getElem?_cons_succ] at hi
        simpa using ih hr j e0 hi

/-- The `INNER` loop leaves every entry but the first of the fragment's chain ID as it is. -/
theorem patchChainEntries_unchanged {buildWorkflow : evmData → Except String Workflow}
    {d : evmData} : ∀ {evm evm' : List EVMConfig} {b : Bool},
    patchChainEntries buildWorkflow d evm = .ok (b, evm') →
    ∀ (i : Nat) (e0 : EVMConfig), evm[i]? = some e0 →
      (e0.ChainID = some (d.ChainID : Int) →
        some (d.ChainID : Int) ∈ (evm.take i).map (fun e => e.ChainID)) →
      evm'[i]? = some e0 := by
  intro evm
  induction evm with
  | nil =>
    intro evm' b _ i e0 hi
    simp at hi
  | cons e rest ih =>
    intro evm' b h i e0 hi hfirst
    rcases patchChainEntries_cons_ok h with ⟨he, _, w, _, rfl⟩ | ⟨he, _, rest', hr, rfl⟩
    · cases i with
      | zero =>
        simp only [List.getElem?_cons_zero, Option.some.injEq] at hi
        subst hi
        simpa using hfirst he
      | succ j =>
        simpa using hi
    · cases i with
      | zero => simpa using hi
      | succ j =>
        simp only [List.getElem?_cons_succ] at hi ⊢
        refine ih hr j e0 hi (fun h0 => ?_)
        have := hfirst h0
        simp only [List.take_succ_cons, List.map_cons, List.mem_cons] at this
        rcases this with h1 | h1
        · exact absurd h1.symm he
        · exact h1

/-! ## The patch step: all fragments -/

/-- Inversion of a run of the loop over the fragments that ends without failure. -/
theorem patchFragments_cons_ok {buildWorkflow : evmData → Except String Workflow}
    {nodeIndex : Int} {d : evmData} {ds : List evmData} {evm out : List EVMConfig}
    (h : patchFragments buildWorkflow nodeIndex (d :: ds) evm = .ok out) :
    ∃ evm1, patchChainEntries buildWorkflow d evm = .ok (true, evm1)
      ∧ patchFragments buildWorkflow nodeIndex ds evm1 = .ok out := by
  unfold patchFragments at h
  cases hp : patchChainEntries buildWorkflow d evm with
  | error f => simp [hp] at h
  | ok p =>
    obtain ⟨b, evm1⟩ := p
    cases b with
    | false => simp [hp] at h
    | true =>
      simp only [hp] at h
      exact ⟨evm1, rfl, h⟩

/-- The loop over the fragments keeps the chain IDs of the entries, in order. -/
theorem patchFragments_ids {buildWorkflow : evmData → Except String Workflow}
    {nodeIndex : Int} : ∀ {data : List evmData} {evm out : List EVMConfig},
    patchFragments buildWorkflow nodeIndex data evm = .ok out →
    out.map (fun e => e.ChainID) = evm.map (fun e => e.ChainID) := by
  intro data
  induction data with
  | nil =>
    intro evm out h
    unfold patchFragments at h
    simp only [Except.ok.injEq] at h
    rw [h]
  | cons d ds ih =>
    intro evm out h
    obtain ⟨evm1, h1, h2⟩ := patchFragments_cons_ok h
    rw [ih h2, patchChainEntries_ids h1]

/-- The loop over the fragments leaves the first entry of a chain ID that no fragment
has as it is. -/
theorem patchFragments_find_other {buildWorkflow : evmData → Except String Workflow}
    {nodeIndex : Int} {id : Int} : ∀ {data : List evmData} {evm out : List EVMConfig},
    patchFragments buildWorkflow nodeIndex data evm = .ok out →
    (∀ d ∈ data, id ≠ (d.ChainID : Int)) →
    out.find? (chainIDIsEqual id) = evm.find? (chainIDIsEqual id) := by
  intro data
  induction data with
  | nil =>
    intro evm out h _
    unfold patchFragments at h
    simp only [Except.ok.injEq] at h
    rw [h]
  | cons d ds ih =>
    intro evm out h hid
    obtain ⟨evm1, h1, h2⟩ := patchFragments_cons_ok h
    rw [ih h2 (fun x hx => hid x (List.mem_cons_of_mem _ hx)),
      patchChainEntries_find_other (hid d (List.mem_cons_self _ _)) h1]

/-- The loop over fragments of pairwise distinct chain IDs: for each fragment, the first
entry of its chain ID ends as that entry patched with the workflow built from it. -/
theorem patchFragments_find_own {buildWorkflow : evmData → Except String Workflow}
    {nodeIndex : Int} : ∀ {data : List evmData} {evm out : List EVMConfig},
    patchFragments buildWorkflow nodeIndex data evm = .ok out →
    (data.map (fun d => d.ChainID)).Nodup →
    ∀ F ∈ data, ∃ e0 w, evm.find? (chainIDIsEqual F.ChainID) = some e0
      ∧ buildWorkflow F = .ok w
      ∧ out.find? (chainIDIsEqual F.ChainID) = some (e0.patched w) := by
  intro data
  induction data with
  | nil =>
    intro evm out _ _ F hF
    simp at hF
  | cons d ds ih =>
    intro evm out h hnd F hF
    obtain ⟨evm1, h1, h2⟩ := patchFragments_cons_ok h
    simp only [List.map_cons, List.nodup_cons, List.mem_map, not_exists, not_and] at hnd
    rcases List.mem_cons.mp hF with rfl | hFds
    · obtain ⟨e0, w, ha, hb, hc⟩ := patchChainEntries_find_own h1
      refine ⟨e0, w, ha, hb, ?_⟩
      rw [patchFragments_find_other h2 (fun x hx hxe => hnd.1 x hx (by exact_mod_cast hxe.symm))]
      exact hc
    · obtain ⟨e0, w, ha, hb, hc⟩ := ih h2 hnd.2 F hFds
      refine ⟨e0, w, ?_, hb, hc⟩
      rw [← ha]
      refine (patchChainEntries_find_other (fun hxe => ?_) h1).symm
      exact hnd.1 F hFds (by exact_mod_cast hxe)

/-- The loop over the fragments changes, in any entry, at most the workflow section and
the flag, and leaves an entry as it is unless it is the first of some fragment's chain ID. -/
theorem patchFragments_frame {buildWorkflow : evmData → Except String Workflow}
    {nodeIndex : Int} : ∀ {data : List evmData} {evm out : List EVMConfig},
    patchFragments buildWorkflow nodeIndex data evm = .ok out →
    ∀ (i : Nat) (e0 : EVMConfig), evm[i]? = some e0 →
      ∃ e, out[i]? = some e ∧ e0.agreesOutsidePatch e ∧
        ((∀ F ∈ data, e0.ChainID = some (F.ChainID : Int) →
            some (F.ChainID : Int) ∈ (evm.take i).map (fun x => x.ChainID)) → e = e0) := by
  intro data
  induction data with
  | nil =>
    intro evm out h i e0 hi
    unfold patchFragments at h
    simp only [Except.ok.injEq] at h
    subst h
    exact ⟨e0, hi, ⟨rfl, rfl, rfl⟩, fun _ => rfl⟩
  | cons d ds ih =>
    intro evm out h i e0 hi
    obtain ⟨evm1, h1, h2⟩ := patchFragments_cons_ok h
    obtain ⟨e1, he1, r01⟩ := patchChainEntries_agrees h1 i e0 hi
    obtain ⟨e, he, r1e, hun⟩ := ih h2 i e1 he1
    refine ⟨e, he, ⟨r1e.1.trans r01.1, r1e.2.1.trans r01.2.1, r1e.2.2.trans r01.2.2⟩, ?_⟩
    intro hall
    have h10 : e1 = e0 := by
      have := patchChainEntries_unchanged h1 i e0 hi (hall d (List.mem_cons_self _ _))
      rw [he1] at this
      exact Option.some.inj this
    subst h10
    apply hun
    intro F hF hFe
    have hids : (evm1.take i).map (fun x => x.ChainID) = (evm.take i).map (fun x => x.ChainID) := by
      rw [List.map_take, List.map_take, patchChainEntries_ids h1]
    rw [hids]
    exact hall F (List.mem_cons_of_mem _ hF) hFe

/-- The loop over the fragments never ends without failure when some fragment has a chain
ID that no entry has. -/
theorem patchFragments_unmatched_not_ok {buildWorkflow : evmData → Except String Workflow}
    {nodeIndex : Int} {F : evmData} : ∀ {data : List evmData} {evm : List EVMConfig},
    F ∈ data → some (F.ChainID : Int) ∉ evm.map (fun e => e.ChainID) →
    ∀ out, patchFragments buildWorkflow nodeIndex data evm ≠ .ok out := by
  intro data
  induction data with
  | nil =>
    intro evm hF
    simp at hF
  | cons d ds ih =>
    intro evm hF hno out h
    obtain ⟨evm1, h1, h2⟩ := patchFragments_cons_ok h
    rcases List.mem_cons.mp hF with rfl | hFds
    · exact hno ((patchChainEntries_found h1).mp rfl)
    · refine ih hFds ?_ out h2
      rw [patchChainEntries_ids h1]
      exact hno

/-- The `INNER` loop for a fragment whose chain ID no entry has, over entries that all
have a chain ID: nothing is found and nothing is changed. -/
theorem patchChainEntries_unmatched {buildWorkflow : evmData → Except String Workflow}
    {d : evmData} (hd : d.ChainID ≤ 2 ^ 63 - 1) : ∀ {evm : List EVMConfig},
    none ∉ evm.map (fun e => e.ChainID) →
    some (d.ChainID : Int) ∉ evm.map (fun e => e.ChainID) →
    patchChainEntries buildWorkflow d evm = .ok (false, evm) := by
  intro evm
  induction evm with
  | nil =>
    intro _ _
    rfl
  | cons e rest ih =>
    intro hnil hno
    simp only [List.map_cons, List.mem_cons, not_or] at hnil hno
    unfold patchChainEntries
    simp only [MustSafeInt64_of_le hd]
    cases hc : e.ChainID with
    | none => exact absurd hc.symm hnil.1
    | some c =>
      simp only
      have hne : ¬ c = (d.ChainID : Int) := by
        intro heq
        exact hno.1 (by rw [hc, heq])
      rw [if_neg hne, ih hnil.2 hno.2]

/-- The `INNER` loop for a fragment whose chain ID some entry has, over entries that all
have a chain ID, and whose workflow section builds: the chain is found. -/
theorem patchChainEntries_matched {buildWorkflow : evmData → Except String Workflow}
    {d : evmData} {w : Workflow} (hd : d.ChainID ≤ 2 ^ 63 - 1)
    (hw : buildWorkflow d = .ok w) : ∀ {evm : List EVMConfig},
    none ∉ evm.map (fun e => e.ChainID) →
    some (d.ChainID : Int) ∈ evm.map (fun e => e.ChainID) →
    ∃ evm', patchChainEntries buildWorkflow d evm = .ok (true, evm') := by
  intro evm
  induction evm with
  | nil =>
    intro _ h
    simp at h
  | cons e rest ih =>
    intro hnil hmem
    simp only [List.map_cons, List.mem_cons, not_or] at hnil
    unfold patchChainEntries
    simp only [MustSafeInt64_of_le hd]
    cases hc : e.ChainID with
    | none => exact absurd hc.symm hnil.1
    | some c =>
      simp only
      by_cases he : c = (d.ChainID : Int)
      · rw [if_pos he]
        simp only [hw]
        exact ⟨_, rfl⟩
      · rw [if_neg he]
        simp only [List.map_cons, List.mem_cons] at hmem
        rcases hmem with h1 | h1
        · rw [hc] at h1
          exact absurd (Option.some.inj h1).symm he
        · obtain ⟨rest', hr⟩ := ih hnil.2 h1
          rw [hr]
          exact ⟨_, rfl⟩

/-- The loop over the fragments fails on the first fragment whose chain ID no entry has,
with the error that names it, when every entry has a chain ID and the fragments before
that one are found and built. -/
theorem patchFragments_first_unmatched {buildWorkflow : evmData → Except String Workflow}
    {nodeIndex : Int} {G : evmData} {post : List evmData} (hG : G.ChainID ≤ 2 ^ 63 - 1) :
    ∀ {pre : List evmData} {evm : List EVMConfig},
    none ∉ evm.map (fun e => e.ChainID) →
    (∀ d ∈ pre, some (d.ChainID : Int) ∈ evm.map (fun e => e.ChainID)
      ∧ d.ChainID ≤ 2 ^ 63 - 1 ∧ ∃ w, buildWorkflow d = .ok w) →
    some (G.ChainID : Int) ∉ evm.map (fun e => e.ChainID) →
    patchFragments buildWorkflow nodeIndex (pre ++ G :: post) evm
      = .error (.err (chainNotFoundError G.ChainID nodeIndex)) := by
  intro pre
  induction pre with
  | nil =>
    intro evm hnil _ hno
    simp only [List.nil_append]
    unfold patchFragments
    rw [patchChainEntries_unmatched hG hnil hno]
  | cons d pre ih =>
    intro evm hnil hpre hno
    obtain ⟨hmem, hd, w, hw⟩ := hpre d (List.mem_cons_self _ _)
    obtain ⟨evm1, h1⟩ := patchChainEntries_matched hd hw hnil hmem
    simp only [List.cons_append]
    unfold patchFragments
    simp only [h1]
    have hids := patchChainEntries_ids h1
    apply ih
    · rw [hids]
      exact hnil
    · intro x hx
      rw [hids]
      exact hpre x (List.mem_cons_of_mem _ hx)
    · rw [hids]
      exact hno

/-- The failures of the `INNER` loop: a panic, for a chain ID of the fragment beyond
`int64` or an entry without a chain ID, or the build error of the fragment. -/
theorem patchChainEntries_error {buildWorkflow : evmData → Except String Workflow}
    {d : evmData} : ∀ {evm : List EVMConfig} {f : Failure},
    patchChainEntries buildWorkflow d evm = .error f →
    (f = .panic ∧ (2 ^ 63 - 1 < d.ChainID ∨ none ∈ evm.map (fun e => e.ChainID)))
      ∨ ∃ e, buildWorkflow d = .error e
          ∧ f = .err (errorsWrap e "failed to build EVM workflow config") := by
  intro evm
  induction evm with
  | nil =>
    intro f h
    simp [patchChainEntries] at h
  | cons e rest ih =>
    intro f h
    unfold patchChainEntries at h
    cases hm : MustSafeInt64 d.ChainID with
    | none =>
      simp only [hm, Except.error.injEq] at h
      left
      refine ⟨h.symm, Or.inl ?_⟩
      by_contra hle
      rw [MustSafeInt64_of_le (by omega)] at hm
      cases hm
    | some id =>
      simp only [hm] at h
      cases hc : e.ChainID with
      | none =>
        simp only [hc, Except.error.injEq] at h
        left
        exact ⟨h.symm, Or.inr (by simp [hc])⟩
      | some c =>
        simp only [hc] at h
        by_cases he : c = id
        · simp only [he, if_true] at h
          cases hb : buildWorkflow d with
          | error err =>
            simp only [hb, Except.error.injEq] at h
            exact Or.inr ⟨err, rfl, h.symm⟩
          | ok w => simp [hb] at h
        · simp only [he, if_false] at h
          cases hr : patchChainEntries buildWorkflow d rest with
          | error f' =>
            simp only [hr, Except.error.injEq] at h
            subst h
            rcases ih hr with ⟨hp, hcase⟩ | hbuild
            · left
              refine ⟨hp, ?_⟩
              rcases hcase with h1 | h1
              · exact Or.inl h1
              · exact Or.inr (by simp only [List.map_cons, List.mem_cons]; exact Or.inr h1)
            · exact Or.inr hbuild
          | ok p => simp [hr] at h

/-- The failures of the loop over the fragments: a panic or a build error of the `INNER`
loop for some fragment, or the chain-entry-not-found error of a fragment whose chain ID no
entry has. -/
theorem patchFragments_error {buildWorkflow : evmData → Except String Workflow}
    {nodeIndex : Int} : ∀ {data : List evmData} {evm : List EVMConfig} {f : Failure},
    patchFragments buildWorkflow nodeIndex data evm = .error f →
    (f = .panic ∧ ((∃ d ∈ data, 2 ^ 63 - 1 < d.ChainID)
        ∨ none ∈ evm.map (fun e => e.ChainID)))
      ∨ (∃ d ∈ data, ∃ e, buildWorkflow d = .error e
          ∧ f = .err (errorsWrap e "failed to build EVM workflow config"))
      ∨ ∃ d ∈ data, some (d.ChainID : Int) ∉ evm.map (fun e => e.ChainID)
          ∧ f = .err (chainNotFoundError d.ChainID nodeIndex) := by
  intro data
  induction data with
  | nil =>
    intro evm f h
    simp [patchFragments] at h
  | cons d ds ih =>
    intro evm f h
    unfold patchFragments at h
    cases hp : patchChainEntries buildWorkflow d evm with
    | error f' =>
      simp only [hp, Except.error.injEq] at h
      subst h
      rcases patchChainEntries_error hp with ⟨hpanic, hcase⟩ | ⟨e, he, hf⟩
      · left
        refine ⟨hpanic, ?_⟩
        rcases hcase with h1 | h1
        · exact Or.inl ⟨d, List.mem_cons_self _ _, h1⟩
        · exact Or.inr h1
      · exact Or.inr (Or.inl ⟨d, List.mem_cons_self _ _, e, he, hf⟩)
    | ok p =>
      obtain ⟨b, evm1⟩ := p
      cases b with
      | false =>
        simp only [hp, Except.error.injEq] at h
        right
        right
        refine ⟨d, List.mem_cons_self _ _, ?_, h.symm⟩
        intro hmem
        have := (patchChainEntries_found hp).mpr hmem
        cases this
      | true =>
        simp only [hp] at h
        have hids := patchChainEntries_ids hp
        rcases ih h with ⟨hpanic, hcase⟩ | ⟨x, hx, e, he, hf⟩ | ⟨x, hx, hno, hf⟩
        · left
          refine ⟨hpanic, ?_⟩
          rcases hcase with ⟨x, hx, hgt⟩ | h1
          · exact Or.inl ⟨x, List.mem_cons_of_mem _ hx, hgt⟩
          · rw [hids] at h1
            exact Or.inr h1
        · exact Or.inr (Or.inl ⟨x, List.mem_cons_of_mem _ hx, e, he, hf⟩)
        · rw [hids] at hno
          exact Or.inr (Or.inr ⟨x, List.mem_cons_of_mem _ hx, hno, hf⟩)

/-! ## The patch step -/

/-- Inversion of a patch step that ends without failure. -/
theorem patchDocument_ok {buildWorkflow : evmData → Except String Workflow}
    {nodeIndex : Int} {data : List evmData} {typedConfig out : Config}
    (h : patchDocument buildWorkflow nodeIndex data typedConfig = .ok out) :
    data.length ≤ typedConfig.EVM.length
      ∧ patchFragments buildWorkflow nodeIndex data typedConfig.EVM = .ok out.EVM
      ∧ out.Rest = typedConfig.Rest := by
  unfold patchDocument at h
  by_cases hlen : typedConfig.EVM.length < data.length
  · simp [hlen] at h
  · rw [if_neg hlen] at h
    cases hp : patchFragments buildWorkflow nodeIndex data typedConfig.EVM with
    | error f => simp [hp] at h
    | ok evm =>
      simp only [hp, Except.ok.injEq] at h
      subst h
      exact ⟨Nat.le_of_not_lt hlen, rfl, rfl⟩

/-- The two error messages of the patch step are never the same text. -/
theorem notEnoughChainsError_ne (nodeIndex nodeIndex' : Int) (expected found chainID : Nat) :
    notEnoughChainsError nodeIndex expected found ≠ chainNotFoundError chainID nodeIndex' := by
  intro h
  have h2 := congrArg (fun s => s.data.head?) h
  simp [notEnoughChainsError, chainNotFoundError, String.data_append] at h2

/-- The build error is never the text of the chain-entry-not-found error. -/
theorem buildError_ne (evmErr : String) (nodeIndex : Int) (chainID : Nat) :
    errorsWrap evmErr "failed to build EVM workflow config"
      ≠ chainNotFoundError chainID nodeIndex := by
  intro h
  have h2 := congrArg (fun s => (s.data.drop 10).head?) h
  simp [errorsWrap, chainNotFoundError, String.data_append] at h2

/-- C6 (counterexample). Four inputs in which a fragment has a chain ID that no chain
entry has and the patch step fails otherwise than with the chain-entry-not-found error:
a document with no chain entry and one fragment (the error is the one of too few chain
entries); a document with the entries 1 and 2 and the fragments 1 and 3, where the
workflow section of fragment 1 does not build (the error is the build error); a document
with the entry 1 and a fragment of chain ID `2 ^ 63` (a panic); and a document with one
entry without a chain ID and the fragment 7 (a panic). -/
theorem patchDocument_unmatched_other_error :
    (sampleFragment 7 ∈ [sampleFragment 7]
      ∧ (∀ e ∈ (Config.mk [] []).EVM, e.ChainID ≠ some ((sampleFragment 7).ChainID : Int))
      ∧ patchDocument sampleBuild 0 [sampleFragment 7] ⟨[], []⟩
          = .error (.err (notEnoughChainsError 0 1 0))
      ∧ ∀ id, notEnoughChainsError 0 1 0 ≠ chainNotFoundError id 0)
    ∧ (sampleFragment 3 ∈ [sampleFragment 1, sampleFragment 3]
      ∧ (∀ e ∈ (Config.mk [sampleEntry 1, sampleEntry 2] []).EVM,
          e.ChainID ≠ some ((sampleFragment 3).ChainID : Int))
      ∧ patchDocument sampleBuildFailing 0 [sampleFragment 1, sampleFragment 3]
            ⟨[sampleEntry 1, sampleEntry 2], []⟩
          = .error (.err (errorsWrap "template validation failed"
              "failed to build EVM workflow config"))
      ∧ ∀ id, errorsWrap "template validation failed" "failed to build EVM workflow config"
          ≠ chainNotFoundError id 0)
    ∧ (sampleFragment (2 ^ 63) ∈ [sampleFragment (2 ^ 63)]
      ∧ (∀ e ∈ (Config.mk [sampleEntry 1] []).EVM,
          e.ChainID ≠ some ((sampleFragment (2 ^ 63)).ChainID : Int))
      ∧ patchDocument sampleBuild 0 [sampleFragment (2 ^ 63)] ⟨[sampleEntry 1], []⟩
          = .error .panic)
    ∧ (sampleFragment 7 ∈ [sampleFragment 7]
      ∧ (∀ e ∈ (Config.mk [{ sampleEntry 1 with ChainID := none }] []).EVM,
          e.ChainID ≠ some ((sampleFragment 7).ChainID : Int))
      ∧ patchDocument sampleBuild 0 [sampleFragment 7]
            ⟨[{ sampleEntry 1 with ChainID := none }], []⟩
          = .error .panic) := by
  refine ⟨⟨by simp, by simp, rfl, fun id => notEnoughChainsError_ne _ _ _ _ _⟩,
    ⟨by simp, ?_, rfl, fun id => buildError_ne _ _ _⟩, ⟨by simp, ?_, ?_⟩,
    ⟨by simp, ?_, rfl⟩⟩
  · intro e he
    simp only [List.mem_cons, List.mem_singleton, List.not_mem_nil, or_false] at he
    rcases he with rfl | rfl <;> decide
  · intro e he
    simp only [List.mem_singleton] at he
    subst he
    simp [sampleEntry, sampleFragment]
  · simp [patchDocument, patchFragments, patchChainEntries, MustSafeInt64, sampleFragment]
  · intro e he
    simp only [List.mem_singleton] at he
    subst he
    simp

/-- C6 (amended). If some fragment has a chain ID that no chain entry of the document has,
the patch step never returns a document. It fails with the chain-entry-not-found error,
naming the node index and the chain ID of the first such fragment `G`, whenever the
document has at least as many chain entries as there are fragments, every chain entry
has a chain ID, `G` and the fragments before it have chain IDs within `int64`, and the
workflow section of every fragment before `G` builds. It fails with the error of too few
chain entries whenever the document has fewer chain entries than there are fragments.
And every failure of the patch step is one of four: the error of too few chain entries
(with fewer entries than fragments), a panic (with a fragment chain ID beyond `int64` or
a chain entry without a chain ID), the build error of a fragment, or the
chain-entry-not-found error of a fragment whose chain ID no entry has. -/
theorem patchDocument_unmatched (buildWorkflow : evmData → Except String Workflow)
    (nodeIndex : Int) (data : List evmData) (typedConfig : Config) (F : evmData)
    (hF : F ∈ data) (hno : ∀ e ∈ typedConfig.EVM, e.ChainID ≠ some (F.ChainID : Int)) :
    (∀ out, patchDocument buildWorkflow nodeIndex data typedConfig ≠ .ok out)
      ∧ (∀ pre G post, data = pre ++ G :: post →
          (∀ d ∈ pre, ∃ e ∈ typedConfig.EVM, e.ChainID = some (d.ChainID : Int)) →
          (∀ e ∈ typedConfig.EVM, e.ChainID ≠ some (G.ChainID : Int)) →
          data.length ≤ typedConfig.EVM.length →
          (∀ e ∈ typedConfig.EVM, e.ChainID ≠ none) →
          (∀ d ∈ pre ++ [G], d.ChainID ≤ 2 ^ 63 - 1) →
          (∀ d ∈ pre, ∃ w, buildWorkflow d = .ok w) →
          patchDocument buildWorkflow nodeIndex data typedConfig
            = .error (.err (chainNotFoundError G.ChainID nodeIndex)))
      ∧ (typedConfig.EVM.length < data.length →
          patchDocument buildWorkflow nodeIndex data typedConfig
            = .error (.err (notEnoughChainsError nodeIndex data.length
                typedConfig.EVM.length)))
      ∧ ∀ f, patchDocument buildWorkflow nodeIndex data typedConfig = .error f →
          (typedConfig.EVM.length < data.length
              ∧ f = .err (notEnoughChainsError nodeIndex data.length typedConfig.EVM.length))
            ∨ (f = .panic ∧ ((∃ d ∈ data, 2 ^ 63 - 1 < d.ChainID)
                ∨ ∃ e ∈ typedConfig.EVM, e.ChainID = none))
            ∨ (∃ d ∈ data, ∃ e, buildWorkflow d = .error e
                ∧ f = .err (errorsWrap e "failed to build EVM workflow config"))
            ∨ ∃ d ∈ data, (∀ e ∈ typedConfig.EVM, e.ChainID ≠ some (d.ChainID : Int))
                ∧ f = .err (chainNotFoundError d.ChainID nodeIndex) := by
  refine ⟨?_, ?_, ?_, ?_⟩
  · intro out h
    obtain ⟨_, hp, _⟩ := patchDocument_ok h
    refine patchFragments_unmatched_not_ok hF ?_ _ hp
    simp only [List.mem_map, not_exists, not_and]
    exact fun e he => hno e he
  · intro pre G post hdata hpre hG hlen hnil hrange hbuild
    unfold patchDocument
    rw [if_neg (Nat.not_lt.mpr hlen), hdata,
      patchFragments_first_unmatched (hrange G (by simp))]
    · simp only [List.mem_map, not_exists, not_and]
      exact fun e he hc => hnil e he hc
    · intro d hd
      refine ⟨?_, hrange d (by simp [hd]), hbuild d hd⟩
      obtain ⟨e, he, hed⟩ := hpre d hd
      exact List.mem_map.mpr ⟨e, he, hed⟩
    · simp only [List.mem_map, not_exists, not_and]
      exact fun e he => hG e he
  · intro hlen
    unfold patchDocument
    rw [if_pos hlen]
  · intro f h
    unfold patchDocument at h
    by_cases hlen : typedConfig.EVM.length < data.length
    · rw [if_pos hlen] at h
      exact Or.inl ⟨hlen, (Except.error.inj h).symm⟩
    · rw [if_neg hlen] at h
      cases hp : patchFragments buildWorkflow nodeIndex data typedConfig.EVM with
      | ok evm => simp [hp] at h
      | error f' =>
        simp only [hp, Except.error.injEq] at h
        subst h
        rcases patchFragments_error hp with ⟨hpanic, hcase⟩ | hb | ⟨d, hd, hnot, hf⟩
        · refine Or.inr (Or.inl ⟨hpanic, ?_⟩)
          rcases hcase with h1 | h1
          · exact Or.inl h1
          · obtain ⟨e, he, hc⟩ := List.mem_map.mp h1
            exact Or.inr ⟨e, he, hc⟩
        · exact Or.inr (Or.inr (Or.inl hb))
        · refine Or.inr (Or.inr (Or.inr ⟨d, hd, ?_, hf⟩))
          intro e he hc
          exact hnot (List.mem_map.mpr ⟨e, he, hc⟩)

/-- C6 (witness): entries 1 and 2, fragments 1 and 3; fragment 3 matches no entry, the
patch step returns no document and fails with the error naming chain 3 and node 4. -/
theorem patchDocument_unmatched_witness :
    (∀ out, patchDocument sampleBuild 4 [sampleFragment 1, sampleFragment 3]
        ⟨[sampleEntry 1, sampleEntry 2], []⟩ ≠ .ok out)
      ∧ patchDocument sampleBuild 4 [sampleFragment 1, sampleFragment 3]
          ⟨[sampleEntry 1, sampleEntry 2], []⟩
        = .error (.err (chainNotFoundError 3 4)) := by
  have hno : ∀ e ∈ (Config.mk [sampleEntry 1, sampleEntry 2] []).EVM,
      e.ChainID ≠ some ((sampleFragment 3).ChainID : Int) := by
    intro e he
    simp only [List.mem_cons, List.mem_singleton, List.not_mem_nil, or_false] at he
    rcases he with rfl | rfl <;> decide
  have h := patchDocument_unmatched sampleBuild 4 [sampleFragment 1, sampleFragment 3]
    ⟨[sampleEntry 1, sampleEntry 2], []⟩ (sampleFragment 3) (by simp) hno
  refine ⟨h.1, h.2.1 [sampleFragment 1] (sampleFragment 3) [] rfl ?_ hno (by decide) ?_ ?_ ?_⟩
  · intro d hd
    rw [List.mem_singleton.mp hd]
    exact ⟨sampleEntry 1, by simp, by decide⟩
  · intro e he
    simp only [List.mem_cons, List.mem_singleton, List.not_mem_nil, or_false] at he
    rcases he with rfl | rfl <;> decide
  · intro d hd
    simp only [List.cons_append, List.nil_append, List.mem_cons, List.mem_singleton,
      List.not_mem_nil, or_false] at hd
    rcases hd with rfl | rfl <;> decide
  · intro d hd
    exact ⟨_, rfl⟩

/-- The node step on a stored document that decodes to fewer chain entries than there
are fragments: the patch step fails with the error of too few chain entries whatever the
workflow builder is, and the node step returns that error with the caller's map of
configurations as it was. -/
theorem transformNodeStep_notEnough (tomlUnmarshal : String → Except String Config)
    (tomlMarshal : Config → Except String String)
    (buildWorkflow : evmData → Except String Workflow)
    (nodeIndex : Int) (data : List evmData) (existingConfigs : List (Int × String))
    (typedConfig : Config)
    (hidx : ¬ ((existingConfigs.length : Int) < intAdd nodeIndex 1))
    (hdec : tomlUnmarshal ((goMapGet existingConfigs nodeIndex).getD "") = .ok typedConfig)
    (hlen : typedConfig.EVM.length < data.length) :
    patchDocument buildWorkflow nodeIndex data typedConfig
        = .error (.err (notEnoughChainsError nodeIndex data.length typedConfig.EVM.length))
      ∧ transformNodeStep tomlUnmarshal tomlMarshal buildWorkflow nodeIndex data existingConfigs
        = (existingConfigs,
            some (.err (notEnoughChainsError nodeIndex data.length typedConfig.EVM.length))) := by
  have hp : patchDocument buildWorkflow nodeIndex data typedConfig
      = .error (.err (notEnoughChainsError nodeIndex data.length typedConfig.EVM.length)) := by
    unfold patchDocument
    rw [if_pos hlen]
  refine ⟨hp, ?_⟩
  unfold transformNodeStep
  rw [if_neg hidx]
  simp only [hdec, hp]

/-- C8. When the patch step succeeds for fragments of pairwise distinct chain IDs, then for
every fragment the first chain entry of its chain ID, in the document given and in the
document returned alike, is patched: the returned one is the given one with the workflow
section that `buildWorkflow` builds from the fragment and with
`Transactions.ForwardersEnabled = true`. -/
theorem patchDocument_first_match (buildWorkflow : evmData → Except String Workflow)
    (nodeIndex : Int) (data : List evmData) (typedConfig out : Config)
    (h : patchDocument buildWorkflow nodeIndex data typedConfig = .ok out)
    (hnd : (data.map (fun d => d.ChainID)).Nodup) (F : evmData) (hF : F ∈ data) :
    ∃ e0 e w, typedConfig.EVM.find? (chainIDIsEqual F.ChainID) = some e0
      ∧ out.EVM.find? (chainIDIsEqual F.ChainID) = some e
      ∧ buildWorkflow F = .ok w
      ∧ e = e0.patched w
      ∧ e.Workflow = w
      ∧ e.Transactions.ForwardersEnabled = some true := by
  obtain ⟨_, hp, _⟩ := patchDocument_ok h
  obtain ⟨e0, w, h1, h2, h3⟩ := patchFragments_find_own hp hnd F hF
  exact ⟨e0, e0.patched w, w, h1, h3, h2, rfl, rfl, rfl⟩

/-- C8 (witness): entries 2, 1, 1 and the fragments 1 and 2; the first entry of chain 1
(the second entry) is the one patched for fragment 1. -/
theorem patchDocument_first_match_witness :
    ∃ e0 e w, (Config.mk [sampleEntry 2, sampleEntry 1, sampleEntry 1] []).EVM.find?
          (chainIDIsEqual (sampleFragment 1).ChainID) = some e0
      ∧ (Config.mk [(sampleEntry 2).patched ⟨none, some "0xF0", none, none, none, none⟩,
            (sampleEntry 1).patched ⟨none, some "0xF0", none, none, none, none⟩,
            sampleEntry 1] []).EVM.find? (chainIDIsEqual (sampleFragment 1).ChainID) = some e
      ∧ sampleBuild (sampleFragment 1) = .ok w
      ∧ e = e0.patched w
      ∧ e.Workflow = w
      ∧ e.Transactions.ForwardersEnabled = some true :=
  patchDocument_first_match sampleBuild 0 [sampleFragment 1, sampleFragment 2]
    ⟨[sampleEntry 2, sampleEntry 1, sampleEntry 1], []⟩ _ rfl (by decide) (sampleFragment 1)
    (by simp)

/-- C9. When the patch step succeeds, the rest of the document is as given, the chain
entries are as many as given and have the given chain IDs in the given order, every entry
agrees with the given one in everything but the workflow section and the flag
`Transactions.ForwardersEnabled`, and an entry that is not the first of some fragment's
chain ID is the given one. -/
theorem patchDocument_frame (buildWorkflow : evmData → Except String Workflow)
    (nodeIndex : Int) (data : List evmData) (typedConfig out : Config)
    (h : patchDocument buildWorkflow nodeIndex data typedConfig = .ok out) :
    out.Rest = typedConfig.Rest
      ∧ out.EVM.length = typedConfig.EVM.length
      ∧ out.EVM.map (fun e => e.ChainID) = typedConfig.EVM.map (fun e => e.ChainID)
      ∧ ∀ (i : Nat) (e0 : EVMConfig), typedConfig.EVM[i]? = some e0 →
          ∃ e, out.EVM[i]? = some e
            ∧ e0.agreesOutsidePatch e
            ∧ { e with
                Workflow := e0.Workflow
                Transactions :=
                  { e.Transactions with
                    ForwardersEnabled := e0.Transactions.ForwardersEnabled } } = e0
            ∧ ((∀ F ∈ data, e0.ChainID = some (F.ChainID : Int) →
                  ∃ e' ∈ typedConfig.EVM.take i, e'.ChainID = some (F.ChainID : Int)) →
                e = e0) := by
  obtain ⟨_, hp, hrest⟩ := patchDocument_ok h
  have hids := patchFragments_ids hp
  refine ⟨hrest, ?_, hids, ?_⟩
  · simpa using congrArg List.length hids
  · intro i e0 hi
    obtain ⟨e, he, hag, hun⟩ := patchFragments_frame hp i e0 hi
    refine ⟨e, he, hag, ?_, ?_⟩
    · obtain ⟨h1, h2, h3⟩ := hag
      cases e0 with
      | mk c0 w0 t0 r0 =>
        cases e with
        | mk c w t r =>
          cases t0
          cases t
          simp_all
    · intro hall
      apply hun
      intro F hF hFe
      obtain ⟨e', he', hid⟩ := hall F hF hFe
      exact List.mem_map.mpr ⟨e', he', hid⟩

/-- C9 (witness): entries 2, 1, 1 and the fragment 1; the third entry, a second entry of
chain 1, comes back as given. -/
theorem patchDocument_frame_witness :
    (Config.mk [sampleEntry 2, (sampleEntry 1).patched
          ⟨none, some "0xF0", none, none, none, none⟩, sampleEntry 1] [("Log", "info")]).Rest
        = (Config.mk [sampleEntry 2, sampleEntry 1, sampleEntry 1] [("Log", "info")]).Rest
      ∧ [sampleEntry 2, (sampleEntry 1).patched ⟨none, some "0xF0", none, none, none, none⟩,
          sampleEntry 1].length = [sampleEntry 2, sampleEntry 1, sampleEntry 1].length
      ∧ [sampleEntry 2, (sampleEntry 1).patched ⟨none, some "0xF0", none, none, none, none⟩,
          sampleEntry 1].map (fun e => e.ChainID)
        = [sampleEntry 2, sampleEntry 1, sampleEntry 1].map (fun e => e.ChainID)
      ∧ ∀ (i : Nat) (e0 : EVMConfig),
          [sampleEntry 2, sampleEntry 1, sampleEntry 1][i]? = some e0 →
          ∃ e, [sampleEntry 2, (sampleEntry 1).patched
                ⟨none, some "0xF0", none, none, none, none⟩, sampleEntry 1][i]? = some e
            ∧ e0.agreesOutsidePatch e
            ∧ { e with
                Workflow := e0.Workflow
                Transactions :=
                  { e.Transactions with
                    ForwardersEnabled := e0.Transactions.ForwardersEnabled } } = e0
            ∧ ((∀ F ∈ [sampleFragment 1], e0.ChainID = some (F.ChainID : Int) →
                  ∃ e' ∈ [sampleEntry 2, sampleEntry 1, sampleEntry 1].take i,
                    e'.ChainID = some (F.ChainID : Int)) → e = e0) :=
  patchDocument_frame sampleBuild 0 [sampleFragment 1]
    ⟨[sampleEntry 2, sampleEntry 1, sampleEntry 1], [("Log", "info")]⟩ _ rfl

/-! ## The forwarder address -/

/-- The loop of `findForwarderAddress`, by the first entry of the forwarder type. -/
theorem findForwarderAddress_loop (HexToAddress : String → Address) (chain : Chain)
    (addrsForChains : List (String × TypeAndVersion)) :
    findForwarderAddress.loop HexToAddress chain addrsForChains =
      match addrsForChains.find? (fun p => decide (p.2.Type_ = KeystoneForwarder)) with
      | none => (none, some ("failed to find forwarder address for chain "
          ++ toString chain.Selector))
      | some p => (some (HexToAddress p.1), none) := by
  induction addrsForChains with
  | nil => rfl
  | cons p rest ih =>
    obtain ⟨addr, addrValue⟩ := p
    unfold findForwarderAddress.loop
    by_cases hk : addrValue.Type_ = KeystoneForwarder
    · simp [hk]
    · simp [hk, ih]

/-- C11. `findForwarderAddress` returns an error exactly when the address-book lookup for
the chain fails or no entry of the chain has the contract type `KeystoneForwarder`, and
then returns the nil address; otherwise it returns, with no error, the address parsed
from an entry of that type, and from the one entry of that type when there is only one. -/
theorem findForwarderAddress_spec (HexToAddress : String → Address) (chain : Chain)
    (addressBook : Nat → Except String (List (String × TypeAndVersion))) :
    ((findForwarderAddress HexToAddress chain addressBook).2 ≠ none ↔
        ((∃ e, addressBook chain.Selector = .error e) ∨
          ∃ m, addressBook chain.Selector = .ok m ∧
            ∀ p ∈ m, p.2.Type_ ≠ KeystoneForwarder))
      ∧ ((findForwarderAddress HexToAddress chain addressBook).2 ≠ none →
          (findForwarderAddress HexToAddress chain addressBook).1 = none)
      ∧ (∀ m, addressBook chain.Selector = .ok m →
          (∃ p ∈ m, p.2.Type_ = KeystoneForwarder) →
          ∃ p ∈ m, p.2.Type_ = KeystoneForwarder ∧
            findForwarderAddress HexToAddress chain addressBook
              = (some (HexToAddress p.1), none))
      ∧ (∀ m p, addressBook chain.Selector = .ok m → p ∈ m →
          p.2.Type_ = KeystoneForwarder →
          (∀ q ∈ m, q.2.Type_ = KeystoneForwarder → q = p) →
          findForwarderAddress HexToAddress chain addressBook
            = (some (HexToAddress p.1), none)) := by
  cases hb : addressBook chain.Selector with
  | error e =>
    have hr : findForwarderAddress HexToAddress chain addressBook
        = (none, some (errorsWrap e "failed to get addresses from address book")) := by
      unfold findForwarderAddress
      rw [hb]
    rw [hr]
    simp
  | ok m =>
    have hr : findForwarderAddress HexToAddress chain addressBook
        = findForwarderAddress.loop HexToAddress chain m := by
      unfold findForwarderAddress
      rw [hb]
    rw [hr, findForwarderAddress_loop]
    cases hfind : m.find? (fun p => decide (p.2.Type_ = KeystoneForwarder)) with
    | none =>
      have hall : ∀ p ∈ m, p.2.Type_ ≠ KeystoneForwarder := by
        intro p hp
        simpa using List.find?_eq_none.mp hfind p hp
      refine ⟨?_, by simp, ?_, ?_⟩
      · simp only [ne_eq, reduceCtorEq, not_false_eq_true, true_iff]
        exact Or.inr ⟨m, rfl, hall⟩
      · rintro m' hm' ⟨p, hp, hk⟩
        cases hm'
        exact absurd hk (hall p hp)
      · intro m' p hm' hp hk _
        cases hm'
        exact absurd hk (hall p hp)
    | some p0 =>
      have hmem : p0 ∈ m := List.mem_of_find?_eq_some hfind
      have hkey : p0.2.Type_ = KeystoneForwarder := by
        simpa using List.find?_some hfind
      refine ⟨?_, by simp, ?_, ?_⟩
      · simp only [ne_eq, not_true_eq_false, false_iff]
        rintro (⟨e, he⟩ | ⟨m', hm', hall⟩)
        · cases he
        · cases hm'
          exact hall p0 hmem hkey
      · intro m' hm' _
        cases hm'
        exact ⟨p0, hmem, hkey, rfl⟩
      · intro m' p hm' _ _ huniq
        cases hm'
        rw [huniq p0 hmem hkey]

/-! ## Merging runtime values -/

/-- Reading a Go map after an assignment. -/
theorem goMapGet_goMapSet {K V : Type} [DecidableEq K] (m : List (K × V)) (k k' : K) (v : V) :
    goMapGet (goMapSet m k v) k' = if k = k' then some v else goMapGet m k' := by
  induction m with
  | nil =>
    by_cases h : k = k' <;> simp [goMapSet, goMapGet, h]
  | cons p rest ih =>
    obtain ⟨k0, v0⟩ := p
    unfold goMapSet
    by_cases h0 : k0 = k
    · subst h0
      by_cases h : k0 = k' <;> simp [goMapGet, h]
    · by_cases h : k = k'
      · subst h
        simp [goMapGet, h0, ih]
      · simp only [h0, if_false, goMapGet, ih, h]

/-- A key that a Go map does not hold is no key of its key list, and conversely. -/
theorem goMapGet_eq_none {K V : Type} [DecidableEq K] (m : List (K × V)) (k : K) :
    goMapGet m k = none ↔ k ∉ goMapKeys m := by
  induction m with
  | nil => simp [goMapGet, goMapKeys]
  | cons p rest ih =>
    obtain ⟨k0, v0⟩ := p
    by_cases h : k0 = k
    · simp [goMapGet, goMapKeys, h]
    · simp only [goMapGet, h, if_false, ih, goMapKeys, List.map_cons, List.mem_cons, not_or]
      exact ⟨fun hr => ⟨fun hk => h hk.symm, hr⟩, fun hr => hr.2⟩

/-- C13. The merge of section 4.2 is a last-writer-wins override: for a base mapping `B`
and a runtime mapping `O` (a map: its keys are pairwise distinct), the merged mapping
holds `O[k]` at every key `k` of `O`, and `B[k]` at every key that `O` does not hold. -/
theorem ApplyRuntimeValues_override {V : Type} (B O : List (String × V))
    (hO : (goMapKeys O).Nodup) :
    (∀ k v, goMapGet O k = some v → goMapGet (ApplyRuntimeValues B O) k = some v)
      ∧ (∀ k, goMapGet O k = none →
          goMapGet (ApplyRuntimeValues B O) k = goMapGet B k) := by
  induction O generalizing B with
  | nil =>
    constructor
    · intro k v h
      simp [goMapGet] at h
    · intro k _
      rfl
  | cons p rest ih =>
    obtain ⟨k0, v0⟩ := p
    simp only [goMapKeys, List.map_cons, List.nodup_cons] at hO
    have ih' := ih (goMapSet B k0 v0) hO.2
    have hk0 : goMapGet rest k0 = none := (goMapGet_eq_none rest k0).mpr hO.1
    have hunf : ApplyRuntimeValues B ((k0, v0) :: rest)
        = ApplyRuntimeValues (goMapSet B k0 v0) rest := rfl
    constructor
    · intro k v h
      rw [hunf]
      by_cases hk : k0 = k
      · subst hk
        simp only [goMapGet, if_true, Option.some.injEq] at h
        subst h
        rw [ih'.2 k0 hk0, goMapGet_goMapSet]
        simp
      · simp only [goMapGet, hk, if_false] at h
        exact ih'.1 k v h
    · intro k h
      rw [hunf]
      by_cases hk : k0 = k
      · simp [goMapGet, hk] at h
      · simp only [goMapGet, hk, if_false] at h
        rw [ih'.2 k h, goMapGet_goMapSet]
        simp [hk]

/-- C13 (witness): the default `GasLimitDefault` stays, the runtime `FromAddress` wins. -/
theorem ApplyRuntimeValues_override_witness :
    (∀ k v, goMapGet [("FromAddress", GoAny.str "0xA1"), ("ForwarderAddress", .str "0xF0")] k
          = some v →
        goMapGet (ApplyRuntimeValues
          [("GasLimitDefault", GoAny.uint 400000), ("FromAddress", .str "0x00")]
          [("FromAddress", .str "0xA1"), ("ForwarderAddress", .str "0xF0")]) k = some v)
      ∧ (∀ k, goMapGet [("FromAddress", GoAny.str "0xA1"), ("ForwarderAddress", .str "0xF0")] k
          = none →
        goMapGet (ApplyRuntimeValues
          [("GasLimitDefault", GoAny.uint 400000), ("FromAddress", .str "0x00")]
          [("FromAddress", .str "0xA1"), ("ForwarderAddress", .str "0xF0")]) k
          = goMapGet [("GasLimitDefault", GoAny.uint 400000), ("FromAddress", .str "0x00")] k) :=
  ApplyRuntimeValues_override _ _ (by decide)

/-! ## Rendering the templates -/

/-- The scan of `containsChars` is the test that `m` is a run of consecutive elements
of `l`. -/
theorem containsChars_iff (m l : List Char) : containsChars m l = true ↔ m <:+: l := by
  induction l with
  | nil => simp [containsChars, List.isEmpty_iff]
  | cons c rest ih =>
    simp only [containsChars, Bool.or_eq_true, ih, List.infix_cons_iff]
    rw [List.isPrefixOf_iff_prefix]

theorem noValueMarker_data :
    noValueMarker.data = ['<', 'n', 'o', ' ', 'v', 'a', 'l', 'u', 'e', '>'] := by
  decide

/-- The marker does not start inside a text without its first character. -/
theorem marker_not_in_text (t X : List Char) (ht : '<' ∉ t)
    (h : noValueMarker.data <:+: t ++ X) : noValueMarker.data <:+: X := by
  induction t with
  | nil => simpa using h
  | cons a t ih =>
    simp only [List.mem_cons, not_or] at ht
    rw [List.cons_append, List.infix_cons_iff] at h
    rcases h with h | h
    · exfalso
      rw [noValueMarker_data] at h
      obtain ⟨s, hs⟩ := h
      simp only [List.cons_append, List.cons.injEq] at hs
      exact ht.1 hs.1
    · exact ih ht.2 h

/-- The marker does not run from a value free of it into what follows, when what
follows starts with a character foreign to the marker. -/
theorem marker_not_across (v S : List Char) (hv : ¬ noValueMarker.data <:+: v)
    (hS : ∀ c ∈ S.head?, c ∉ noValueMarker.data)
    (h : noValueMarker.data <:+: v ++ S) : noValueMarker.data <:+: S := by
  induction v with
  | nil => simpa using h
  | cons a v ih =>
    have hv' : ¬ noValueMarker.data <:+: v :=
      fun hi => hv (List.infix_cons hi)
    rw [List.cons_append, List.infix_cons_iff] at h
    rcases h with h | h
    · exfalso
      rw [← List.cons_append] at h
      rcases List.prefix_or_prefix_of_prefix h (List.prefix_append (a :: v) S) with hp | hp
      · obtain ⟨t, ht⟩ := hp
        exact hv ⟨[], t, by simpa using ht⟩
      · obtain ⟨m2, hm2⟩ := hp
        rw [← hm2, List.prefix_append_right_inj] at h
        cases m2 with
        | nil =>
          rw [List.append_nil] at hm2
          exact hv (hm2 ▸ List.infix_refl _)
        | cons c m2 =>
          obtain ⟨s, hs⟩ := h
          have hc : c ∈ S.head? := by
            rw [← hs]
            simp
          refine hS c hc ?_
          rw [← hm2]
          simp
    · exact ih hv' h

theorem marker_in_append_left {m l : List Char} (t : List Char) (h : m <:+: l) :
    m <:+: t ++ l := by
  obtain ⟨a, b, hab⟩ := h
  exact ⟨t ++ a, b, by simp [← hab]⟩

/-- The text that a template prints ends with what its last nodes print. -/
theorem templateExecute_data (node : TemplateNode) (rest : List TemplateNode)
    (data : Option (List (String × GoAny))) :
    (templateExecute (node :: rest) data).data
      = (templateNodeText data node).data ++ (templateExecute rest data).data := by
  rw [templateExecute, String.data_append]

/-- A guarded template prints the marker only for a field: if every field is in the
data with a value whose text is free of the marker, the output is free of it. -/
theorem templateExecute_clean (data : Option (List (String × GoAny))) :
    ∀ (tmpl : List TemplateNode), templateGuarded tmpl = true →
    (∀ name ∈ templateFields tmpl, ∃ v, data.bind (fun m => goMapGet m name) = some v
      ∧ containsChars noValueMarker.data v.print.data = false) →
    containsChars noValueMarker.data (templateExecute tmpl data).data = false := by
  intro tmpl
  induction tmpl with
  | nil =>
    intro _ _
    rfl
  | cons node rest ih =>
    intro hg hv
    rw [Bool.eq_false_iff, ne_eq, containsChars_iff, templateExecute_data]
    intro hin
    cases node with
    | text s =>
      simp only [templateGuarded, Bool.and_eq_true, Bool.not_eq_true'] at hg
      have hlt : '<' ∉ s.data := by simpa using hg.1
      have hrest := ih hg.2 (fun name hn => hv name (by simpa [templateFields] using hn))
      rw [Bool.eq_false_iff, ne_eq, containsChars_iff] at hrest
      exact hrest (marker_not_in_text _ _ hlt hin)
    | field name =>
      simp only [templateGuarded, Bool.and_eq_true] at hg
      have hrest := ih hg.2 (fun n hn => hv n (by simp [templateFields, hn]))
      rw [Bool.eq_false_iff, ne_eq, containsChars_iff] at hrest
      obtain ⟨v, hlook, hclean⟩ := hv name (by simp [templateFields])
      rw [Bool.eq_false_iff, ne_eq, containsChars_iff] at hclean
      have htext : templateNodeText data (.field name) = v.print := by
        simp only [templateNodeText, hlook]
      rw [htext] at hin
      refine hrest (marker_not_across _ _ hclean ?_ hin)
      intro c hc
      cases rest with
      | nil => simp [templateExecute] at hc
      | cons node' rest' =>
        cases node' with
        | field _ => simp at hg
        | text s =>
          rw [templateExecute_data] at hc
          simp only [templateNodeText] at hc
          cases hs : s.data with
          | nil => simp [hs] at hg
          | cons c' s' =>
            simp only [hs, Bool.not_eq_true'] at hg
            have hcm : c' ∉ noValueMarker.data := by simpa using hg.1
            simp only [hs, List.cons_append, List.head?_cons, Option.mem_def,
              Option.some.injEq] at hc
            rw [← hc]
            exact hcm

/-- A template prints the marker for every field that the data lacks. -/
theorem templateExecute_missing (data : Option (List (String × GoAny))) (name : String)
    (hmiss : data.bind (fun m => goMapGet m name) = none) :
    ∀ (tmpl : List TemplateNode), name ∈ templateFields tmpl →
    containsChars noValueMarker.data (templateExecute tmpl data).data = true := by
  intro tmpl
  induction tmpl with
  | nil =>
    intro h
    simp [templateFields] at h
  | cons node rest ih =>
    intro h
    rw [containsChars_iff, templateExecute_data]
    cases node with
    | text s =>
      have := ih (by simpa [templateFields] using h)
      rw [containsChars_iff] at this
      exact marker_in_append_left _ this
    | field n =>
      simp only [templateFields, List.mem_cons] at h
      rcases h with rfl | h
      · have htext : templateNodeText data (.field name) = noValueMarker := by
          simp only [templateNodeText, hmiss]
          rfl
        rw [htext]
        exact ⟨[], (templateExecute rest data).data, by simp⟩
      · have := ih h
        rw [containsChars_iff] at this
        exact marker_in_append_left _ this

/-- The parsed form of `evmWorkflowConfigTemplate`. -/
theorem templateParse_evmWorkflowConfigTemplate :
    templateParse evmWorkflowConfigTemplate = .ok
      [.text "\n\tFromAddress = '", .field "FromAddress",
       .text "'\n\tForwarderAddress = '", .field "ForwarderAddress",
       .text "'\n\tGasLimitDefault = ", .field "GasLimitDefault",
       .text "\n\tTxAcceptanceState = ", .field "TxAcceptanceState",
       .text "\n\tPollPeriod = '", .field "PollPeriod",
       .text "'\n\tAcceptanceTimeout = '", .field "AcceptanceTimeout",
       .text "'\n"] := by
  rfl

/-- The parsed form of `configTemplate`. -/
theorem templateParse_configTemplate :
    templateParse configTemplate = .ok
      [.text "'\x7b\"chainId\":", .field "ChainID",
       .text ",\"network\":\"", .field "NetworkFamily",
       .text "\",\"logTriggerPollInterval\":", .field "LogTriggerPollInterval",
       .text ", \"creForwarderAddress\":\"", .field "CreForwarderAddress",
       .text "\",\"receiverGasMinimum\":", .field "ReceiverGasMinimum",
       .text ",\"nodeAddress\":\"", .field "NodeAddress",
       .text "\"\x7d'"] := by
  rfl

/-- C14 (counterexample). Workflow values that hold every placeholder of
`evmWorkflowConfigTemplate`, one of them being the text `<no value>`: the rendering raises
the unresolved-placeholder error, whatever the TOML decoder is. -/
theorem buildEVMWorkflowConfig_marker_in_value :
    (∀ name ∈ ["FromAddress", "ForwarderAddress", "GasLimitDefault", "TxAcceptanceState",
        "PollPeriod", "AcceptanceTimeout"], goMapGet sampleWorkflowValues name ≠ none)
      ∧ buildEVMWorkflowConfig (fun _ => .ok sampleWorkflow)
          { ChainID := 1, ChainSelector := 1, FromAddress := { Bytes := [] },
            ForwarderAddress := "0xF0", WorkflowConfig := some sampleWorkflowValues }
        = .error (errorsWrap (unresolvedPlaceholderError flag)
            (flag ++ " template validation failed")) := by
  constructor
  · decide
  · rfl

/-- C14 (amended). For both templates: when the values hold every placeholder of the
template and the text of no value contains `<no value>`, the validation of the rendered
text raises no error (`buildEVMWorkflowConfig` goes on to decode the text, and
`generateJobSpec` returns it); when the values lack a placeholder of the template, both
return the unresolved-placeholder error and no output. -/
theorem templates_render :
    (∀ (tomlUnmarshalWorkflow : String → Except String Workflow) (evmInput : evmData) tmpl,
        templateParse evmWorkflowConfigTemplate = .ok tmpl →
        (∀ name ∈ templateFields tmpl, ∃ v,
          evmInput.WorkflowConfig.bind (fun m => goMapGet m name) = some v
            ∧ containsChars noValueMarker.data v.print.data = false) →
        ValidateTemplateSubstitution (templateExecute tmpl evmInput.WorkflowConfig) flag = none
          ∧ buildEVMWorkflowConfig tomlUnmarshalWorkflow evmInput =
            match tomlUnmarshalWorkflow (templateExecute tmpl evmInput.WorkflowConfig) with
            | .error unmarshallErr =>
              .error (errorsWrap unmarshallErr
                ("failed to unmarshal EVM.Workflow config for chain "
                  ++ toString evmInput.ChainID ++ ", err: " ++ unmarshallErr))
            | .ok evmWorkflow => .ok evmWorkflow)
      ∧ (∀ (tomlUnmarshalWorkflow : String → Except String Workflow) (evmInput : evmData) name,
        name ∈ ["FromAddress", "ForwarderAddress", "GasLimitDefault", "TxAcceptanceState",
          "PollPeriod", "AcceptanceTimeout"] →
        evmInput.WorkflowConfig.bind (fun m => goMapGet m name) = none →
        buildEVMWorkflowConfig tomlUnmarshalWorkflow evmInput
          = .error (errorsWrap (unresolvedPlaceholderError flag)
              (flag ++ " template validation failed")))
      ∧ (∀ (EvmChainIdToChainSelector : Nat → Option Nat)
          (addressesGet : Nat → String → String → String → Except String String)
          (applyRuntimeValues : Option (List (String × GoAny)) → List (String × GoAny) →
            Option (List (String × GoAny)) × Option String)
          (chainID : Nat) (nodeAddress : String) (mergedConfig : Option (List (String × GoAny)))
          cs creForwarderAddress templateData tmpl,
        EvmChainIdToChainSelector chainID = some cs →
        addressesGet cs KeystoneForwarder "1.0.0" "" = .ok creForwarderAddress →
        applyRuntimeValues mergedConfig
            (buildRuntimeValues chainID "evm" creForwarderAddress nodeAddress)
          = (templateData, none) →
        templateParse configTemplate = .ok tmpl →
        ((∀ name ∈ templateFields tmpl, ∃ v,
            templateData.bind (fun m => goMapGet m name) = some v
              ∧ containsChars noValueMarker.data v.print.data = false) →
          generateJobSpec EvmChainIdToChainSelector addressesGet applyRuntimeValues chainID
              nodeAddress mergedConfig
            = (templateExecute tmpl templateData, none))
        ∧ (∀ name ∈ ["ChainID", "NetworkFamily", "LogTriggerPollInterval",
              "CreForwarderAddress", "ReceiverGasMinimum", "NodeAddress"],
            templateData.bind (fun m => goMapGet m name) = none →
          generateJobSpec EvmChainIdToChainSelector addressesGet applyRuntimeValues chainID
              nodeAddress mergedConfig
            = ("", some (errorsWrap (unresolvedPlaceholderError flag)
                (flag ++ " template validation failed"))))) := by
  refine ⟨?_, ?_, ?_⟩
  · intro toml evmInput tmpl hparse hvals
    have hg : templateGuarded tmpl = true := by
      rw [templateParse_evmWorkflowConfigTemplate] at hparse
      cases hparse
      decide
    have hclean := templateExecute_clean evmInput.WorkflowConfig tmpl hg hvals
    have hval : ValidateTemplateSubstitution (templateExecute tmpl evmInput.WorkflowConfig) flag
        = none := by
      unfold ValidateTemplateSubstitution
      rw [hclean]
      rfl
    refine ⟨hval, ?_⟩
    unfold buildEVMWorkflowConfig
    simp only [hparse, hval]
  · intro toml evmInput name hname hmiss
    have hcont := templateExecute_missing evmInput.WorkflowConfig name hmiss _
      (show name ∈ templateFields
          [.text "\n\tFromAddress = '", .field "FromAddress",
           .text "'\n\tForwarderAddress = '", .field "ForwarderAddress",
           .text "'\n\tGasLimitDefault = ", .field "GasLimitDefault",
           .text "\n\tTxAcceptanceState = ", .field "TxAcceptanceState",
           .text "\n\tPollPeriod = '", .field "PollPeriod",
           .text "'\n\tAcceptanceTimeout = '", .field "AcceptanceTimeout",
           .text "'\n"] from hname)
    unfold buildEVMWorkflowConfig
    simp only [templateParse_evmWorkflowConfigTemplate, ValidateTemplateSubstitution, hcont,
      if_true]
  · intro table get apply chainID nodeAddress mergedConfig cs addr templateData tmpl
      hcs hget happly hparse
    constructor
    · intro hvals
      have hg : templateGuarded tmpl = true := by
        rw [templateParse_configTemplate] at hparse
        cases hparse
        decide
      have hclean := templateExecute_clean templateData tmpl hg hvals
      unfold generateJobSpec
      simp only [hcs, hget, happly, hparse, ValidateTemplateSubstitution, hclean]
      rfl
    · intro name hname hmiss
      rw [templateParse_configTemplate] at hparse
      cases hparse
      have hcont := templateExecute_missing templateData name hmiss _
        (show name ∈ templateFields
          [.text "'\x7b\"chainId\":", .field "ChainID",
           .text ",\"network\":\"", .field "NetworkFamily",
           .text "\",\"logTriggerPollInterval\":", .field "LogTriggerPollInterval",
           .text ", \"creForwarderAddress\":\"", .field "CreForwarderAddress",
           .text "\",\"receiverGasMinimum\":", .field "ReceiverGasMinimum",
           .text ",\"nodeAddress\":\"", .field "NodeAddress",
           .text "\"\x7d'"] from hname)
      unfold generateJobSpec
      simp only [hcs, hget, happly, templateParse_configTemplate, ValidateTemplateSubstitution,
        hcont, if_true]

/-! ## Assembling the fragments -/

/-- C15. When the default capability configs hold no entry for the evm capability (the
map may also be nil), `mergeDefaultAndRuntimeConfigValues` returns the fragment it was
given and no error, whatever the other arguments are; workflow values that were nil are
still nil. -/
theorem mergeDefaultAndRuntimeConfigValues_noDefault (env : Env) (data : evmData)
    (defaultCapabilityConfigs : Option (List (String × CapabilityConfig)))
    (nodeSetChainCapabilities : Option (List (String × Option ChainCapabilityConfig)))
    (chainID : Nat)
    (h : defaultCapabilityConfigs = none ∨
      ∃ m, defaultCapabilityConfigs = some m ∧ flag ∉ goMapKeys m) :
    mergeDefaultAndRuntimeConfigValues env data defaultCapabilityConfigs
        nodeSetChainCapabilities chainID = (data, none)
      ∧ (data.WorkflowConfig = none →
          (mergeDefaultAndRuntimeConfigValues env data defaultCapabilityConfigs
            nodeSetChainCapabilities chainID).1.WorkflowConfig = none) := by
  have hlook : defaultCapabilityConfigs.bind (fun m => goMapGet m flag) = none := by
    rcases h with h | ⟨m, hm, hk⟩
    · rw [h]
      rfl
    · rw [hm]
      exact (goMapGet_eq_none m flag).mpr hk
  have hres : mergeDefaultAndRuntimeConfigValues env data defaultCapabilityConfigs
      nodeSetChainCapabilities chainID = (data, none) := by
    unfold mergeDefaultAndRuntimeConfigValues
    rw [hlook]
  exact ⟨hres, fun hw => by rw [hres]; exact hw⟩

/-- C15 (witness): default configs with an entry for another capability only. -/
theorem mergeDefaultAndRuntimeConfigValues_noDefault_witness :
    mergeDefaultAndRuntimeConfigValues sampleEnv (sampleFragment 1)
        (some [("cron", { Config := none })]) none 1 = (sampleFragment 1, none)
      ∧ ((sampleFragment 1).WorkflowConfig = none →
          (mergeDefaultAndRuntimeConfigValues sampleEnv (sampleFragment 1)
            (some [("cron", { Config := none })]) none 1).1.WorkflowConfig = none) :=
  mergeDefaultAndRuntimeConfigValues_noDefault sampleEnv (sampleFragment 1)
    (some [("cron", { Config := none })]) none 1
    (Or.inr ⟨_, rfl, by decide⟩)

/-- The call `findForwarderAddress` returns an address or an error. -/
theorem findForwarderAddress_ne_nil (HexToAddress : String → Address) (chain : Chain)
    (addressBook : Nat → Except String (List (String × TypeAndVersion))) :
    findForwarderAddress HexToAddress chain addressBook ≠ (none, none) := by
  unfold findForwarderAddress
  cases addressBook chain.Selector with
  | error e => simp
  | ok m =>
    simp only [findForwarderAddress_loop]
    cases m.find? (fun p => decide (p.2.Type_ = KeystoneForwarder)) <;> simp

/-- The call `findNodeEthAddressAddress` returns an address or an error. -/
theorem findNodeEthAddressAddress_ne_nil (AddressKeyFromSelector : Nat → String)
    (HexToAddress : String → Address) (chainSelector : Nat) (nodeLabels : List Label) :
    findNodeEthAddressAddress AddressKeyFromSelector HexToAddress chainSelector nodeLabels
      ≠ (none, none) := by
  unfold findNodeEthAddressAddress
  simp only [findNodeEthAddressAddress_loop]
  cases nodeLabels.find? (fun l => decide (l.Key = AddressKeyFromSelector chainSelector)) with
  | none => simp
  | some l =>
    by_cases hv : l.Value = "" <;> simp [hv]

/-- The fragment of a chain that the chain table does not hold: the unknown-chain error,
whatever the input, the node and its labels are. -/
theorem assembleFragment_unknown (env : Env) (input : GenerateConfigsInput)
    (nodeSet : CapabilitiesAwareNodeSet) (nodeIdx : Nat) (nodeLabels : List Label)
    (chainID : Nat) (h : env.ChainByEvmChainID chainID = none) :
    assembleFragment env input nodeSet nodeIdx nodeLabels chainID
      = .error (.err (unknownChainError chainID)) := by
  unfold assembleFragment
  rw [h]

/-- The assembly of a fragment does not panic. -/
theorem assembleFragment_no_panic (env : Env) (input : GenerateConfigsInput)
    (nodeSet : CapabilitiesAwareNodeSet) (nodeIdx : Nat) (nodeLabels : List Label)
    (chainID : Nat) :
    assembleFragment env input nodeSet nodeIdx nodeLabels chainID ≠ .error .panic := by
  unfold assembleFragment
  cases env.ChainByEvmChainID chainID with
  | none => simp
  | some chain =>
    simp only
    have h1 := findForwarderAddress_ne_nil env.HexToAddress chain input.AddressBook
    rcases hf : findForwarderAddress env.HexToAddress chain input.AddressBook with ⟨a, b⟩
    rw [hf] at h1
    cases b with
    | some e => simp
    | none =>
      cases a with
      | none => exact absurd rfl h1
      | some fa =>
        simp only
        have h2 := findNodeEthAddressAddress_ne_nil env.AddressKeyFromSelector
          env.HexToAddress chain.Selector nodeLabels
        rcases hn : findNodeEthAddressAddress env.AddressKeyFromSelector env.HexToAddress
          chain.Selector nodeLabels with ⟨c, d⟩
        rw [hn] at h2
        cases d with
        | some e => simp
        | none =>
          cases c with
          | none => exact absurd rfl h2
          | some ea =>
            simp only
            rcases mergeDefaultAndRuntimeConfigValues env _ input.CapabilityConfigs
              nodeSet.ChainCapabilities chainID with ⟨m, e⟩
            cases e <;> simp

/-- The loop over the enabled chains either assembles every fragment or ends with an
error; it does not panic. -/
theorem assembleFragments_no_panic (env : Env) (input : GenerateConfigsInput)
    (nodeSet : CapabilitiesAwareNodeSet) (nodeIdx : Nat) (nodeLabels : List Label)
    (chains : List Nat) :
    assembleFragments env input nodeSet nodeIdx nodeLabels chains ≠ .error .panic := by
  induction chains with
  | nil => simp [assembleFragments]
  | cons c rest ih =>
    unfold assembleFragments
    have h1 := assembleFragment_no_panic env input nodeSet nodeIdx nodeLabels c
    cases hf : assembleFragment env input nodeSet nodeIdx nodeLabels c with
    | error f =>
      rw [hf] at h1
      simpa using h1
    | ok d =>
      simp only
      cases hr : assembleFragments env input nodeSet nodeIdx nodeLabels rest with
      | error f =>
        rw [hr] at ih
        simpa using ih
      | ok ds => simp

/-- The loop over the enabled chains fails when a chain is unknown. -/
theorem assembleFragments_unknown_fails (env : Env) (input : GenerateConfigsInput)
    (nodeSet : CapabilitiesAwareNodeSet) (nodeIdx : Nat) (nodeLabels : List Label)
    (chainID : Nat) (h : env.ChainByEvmChainID chainID = none) (chains : List Nat)
    (hc : chainID ∈ chains) :
    ∃ e, assembleFragments env input nodeSet nodeIdx nodeLabels chains = .error (.err e) := by
  induction chains with
  | nil => simp at hc
  | cons c rest ih =>
    have hnp := assembleFragments_no_panic env input nodeSet nodeIdx nodeLabels (c :: rest)
    unfold assembleFragments at hnp ⊢
    cases hf : assembleFragment env input nodeSet nodeIdx nodeLabels c with
    | error f =>
      rw [hf] at hnp
      cases f with
      | err e => exact ⟨e, rfl⟩
      | panic => exact absurd rfl hnp
    | ok d =>
      rcases List.mem_cons.mp hc with rfl | hrest
      · rw [assembleFragment_unknown env input nodeSet nodeIdx nodeLabels chainID h] at hf
        cases hf
      · obtain ⟨e, he⟩ := ih hrest
        simp only [he]
        exact ⟨e, rfl⟩

/-- The loop over the enabled chains ends with the unknown-chain error of the first
unknown chain when the fragments of the chains before it assemble. -/
theorem assembleFragments_first_unknown (env : Env) (input : GenerateConfigsInput)
    (nodeSet : CapabilitiesAwareNodeSet) (nodeIdx : Nat) (nodeLabels : List Label)
    (chainID : Nat) (h : env.ChainByEvmChainID chainID = none) (post : List Nat) :
    ∀ (pre : List Nat) (preData : List evmData),
    assembleFragments env input nodeSet nodeIdx nodeLabels pre = .ok preData →
    assembleFragments env input nodeSet nodeIdx nodeLabels (pre ++ chainID :: post)
      = .error (.err (unknownChainError chainID)) := by
  intro pre
  induction pre with
  | nil =>
    intro _ _
    simp only [List.nil_append]
    unfold assembleFragments
    rw [assembleFragment_unknown env input nodeSet nodeIdx nodeLabels chainID h]
  | cons c pre ih =>
    intro preData hpre
    unfold assembleFragments at hpre
    simp only [List.cons_append]
    unfold assembleFragments
    cases hf : assembleFragment env input nodeSet nodeIdx nodeLabels c with
    | error f => simp [hf] at hpre
    | ok d =>
      simp only [hf] at hpre
      cases hr : assembleFragments env input nodeSet nodeIdx nodeLabels pre with
      | error f => simp [hr] at hpre
      | ok ds =>
        simp only [ih ds hr]

/-! ## The node loop -/

/-- A node step that fails leaves the caller's map as it was. -/
theorem transformNodeStep_fail_unchanged (tomlUnmarshal : String → Except String Config)
    (tomlMarshal : Config → Except String String)
    (buildWorkflow : evmData → Except String Workflow)
    (nodeIndex : Int) (data : List evmData) (existingConfigs m : List (Int × String))
    (f : Failure)
    (h : transformNodeStep tomlUnmarshal tomlMarshal buildWorkflow nodeIndex data
      existingConfigs = (m, some f)) : m = existingConfigs := by
  unfold transformNodeStep at h
  split at h
  · exact (Prod.mk.inj h).1.symm
  · simp only at h
    split at h
    · exact (Prod.mk.inj h).1.symm
    · split at h
      · exact (Prod.mk.inj h).1.symm
      · split at h
        · exact (Prod.mk.inj h).1.symm
        · simp at h

/-- A node step that succeeds has read the entry of the node index, patched the decoded
document and written the encoded result back to the entry of the node index. -/
theorem transformNodeStep_ok (tomlUnmarshal : String → Except String Config)
    (tomlMarshal : Config → Except String String)
    (buildWorkflow : evmData → Except String Workflow)
    (nodeIndex : Int) (data : List evmData) (existingConfigs m : List (Int × String))
    (h : transformNodeStep tomlUnmarshal tomlMarshal buildWorkflow nodeIndex data
      existingConfigs = (m, none)) :
    ∃ typedConfig patched stringifiedConfig,
      tomlUnmarshal ((goMapGet existingConfigs nodeIndex).getD "") = .ok typedConfig
        ∧ patchDocument buildWorkflow nodeIndex data typedConfig = .ok patched
        ∧ tomlMarshal patched = .ok stringifiedConfig
        ∧ m = goMapSet existingConfigs nodeIndex stringifiedConfig := by
  unfold transformNodeStep at h
  split at h
  · simp at h
  · simp only at h
    split at h
    · simp at h
    · rename_i typedConfig hdec
      split at h
      · simp at h
      · rename_i patched hpatch
        split at h
        · simp at h
        · rename_i s henc
          exact ⟨typedConfig, patched, s, hdec, hpatch, henc, (Prod.mk.inj h).1.symm⟩

/-- A node step for an index with too few stored configurations fails with the
missing-config error. -/
theorem transformNodeStep_missing (tomlUnmarshal : String → Except String Config)
    (tomlMarshal : Config → Except String String)
    (buildWorkflow : evmData → Except String Workflow)
    (nodeIndex : Int) (data : List evmData) (existingConfigs : List (Int × String))
    (h : (existingConfigs.length : Int) < intAdd nodeIndex 1) :
    transformNodeStep tomlUnmarshal tomlMarshal buildWorkflow nodeIndex data existingConfigs
      = (existingConfigs, some (.err (missingConfigError nodeIndex))) := by
  unfold transformNodeStep
  rw [if_pos h]
  rfl

/-- The node loop at its first node. -/
theorem transformNodes_cons (env : Env) (input : GenerateConfigsInput)
    (nodeSet : CapabilitiesAwareNodeSet) (cfg : ChainCapabilityConfig)
    (node : NodeMetadata) (rest : List NodeMetadata) (nodeIdx : Nat)
    (m : List (Int × String)) :
    transformNodes env input nodeSet cfg (node :: rest) nodeIdx m =
      match nodeIndexOf env node.Labels 0 with
      | .error e => (m, some (.err e))
      | .ok nodeIndex =>
        match assembleFragments env input nodeSet nodeIdx node.Labels cfg.EnabledChains with
        | .error f => (m, some f)
        | .ok data =>
          match transformNodeStep env.tomlUnmarshal env.tomlMarshal env.buildWorkflow
              nodeIndex data m with
          | (m', some f) => (m', some f)
          | (m', none) => transformNodes env input nodeSet cfg rest (nodeIdx + 1) m' := by
  rw [transformNodes]

/-- The node loop over two lists of nodes in a row. -/
theorem transformNodes_append (env : Env) (input : GenerateConfigsInput)
    (nodeSet : CapabilitiesAwareNodeSet) (cfg : ChainCapabilityConfig)
    (post : List NodeMetadata) :
    ∀ (pre : List NodeMetadata) (nodeIdx : Nat) (m : List (Int × String)),
    transformNodes env input nodeSet cfg (pre ++ post) nodeIdx m =
      match transformNodes env input nodeSet cfg pre nodeIdx m with
      | (m', none) => transformNodes env input nodeSet cfg post (nodeIdx + pre.length) m'
      | (m', some f) => (m', some f) := by
  intro pre
  induction pre with
  | nil =>
    intro nodeIdx m
    simp [transformNodes]
  | cons node rest ih =>
    intro nodeIdx m
    simp only [List.cons_append, List.length_cons]
    rw [transformNodes_cons env input nodeSet cfg node (rest ++ post),
      transformNodes_cons env input nodeSet cfg node rest]
    cases nodeIndexOf env node.Labels 0 with
    | error e => rfl
    | ok nodeIndex =>
      simp only
      cases assembleFragments env input nodeSet nodeIdx node.Labels cfg.EnabledChains with
      | error f => rfl
      | ok data =>
        simp only
        rcases transformNodeStep env.tomlUnmarshal env.tomlMarshal env.buildWorkflow nodeIndex
          data m with ⟨m1, r⟩
        cases r with
        | some f => rfl
        | none =>
          simp only
          have : nodeIdx + 1 + rest.length = nodeIdx + (rest.length + 1) := by omega
          rw [ih (nodeIdx + 1) m1, this]

/-- Reading a Go map at another key than the one assigned. -/
theorem goMapGet_goMapSet_ne {K V : Type} [DecidableEq K] (m : List (K × V)) (k k' : K) (v : V)
    (h : k ≠ k') : goMapGet (goMapSet m k v) k' = goMapGet m k' := by
  rw [goMapGet_goMapSet, if_neg h]

/-- The node loop changes the caller's map at node indices of its nodes only. -/
theorem transformNodes_frame (env : Env) (input : GenerateConfigsInput)
    (nodeSet : CapabilitiesAwareNodeSet) (cfg : ChainCapabilityConfig) (k : Int) :
    ∀ (nodes : List NodeMetadata) (nodeIdx : Nat) (m m' : List (Int × String))
      (r : Option Failure),
    transformNodes env input nodeSet cfg nodes nodeIdx m = (m', r) →
    (∀ node ∈ nodes, nodeIndexOf env node.Labels 0 ≠ .ok k) →
    goMapGet m' k = goMapGet m k := by
  intro nodes
  induction nodes with
  | nil =>
    intro nodeIdx m m' r h _
    simp only [transformNodes, Prod.mk.injEq] at h
    rw [h.1]
  | cons node rest ih =>
    intro nodeIdx m m' r h hk
    rw [transformNodes_cons] at h
    cases hi : nodeIndexOf env node.Labels 0 with
    | error e =>
      rw [hi] at h
      rw [(Prod.mk.inj h).1]
    | ok nodeIndex =>
      simp only [hi] at h
      have hne : nodeIndex ≠ k := by
        intro heq
        exact hk node (List.mem_cons_self _ _) (by rw [hi, heq])
      cases ha : assembleFragments env input nodeSet nodeIdx node.Labels cfg.EnabledChains with
      | error f' =>
        rw [ha] at h
        rw [(Prod.mk.inj h).1]
      | ok data =>
        simp only [ha] at h
        rcases hs : transformNodeStep env.tomlUnmarshal env.tomlMarshal env.buildWorkflow
          nodeIndex data m with ⟨m1, r1⟩
        rw [hs] at h
        cases r1 with
        | some f' =>
          simp only [Prod.mk.injEq] at h
          rw [← h.1, transformNodeStep_fail_unchanged _ _ _ _ _ _ _ _ hs]
        | none =>
          simp only at h
          obtain ⟨_, _, s, _, _, _, hm1⟩ := transformNodeStep_ok _ _ _ _ _ _ _ hs
          rw [ih (nodeIdx + 1) m1 m' r h (fun n hn => hk n (List.mem_cons_of_mem _ hn)), hm1,
            goMapGet_goMapSet_ne _ _ _ _ hne]

/-! ## The call `transformNodeConfig` -/

/-- The call once it reaches the node loop. -/
theorem transformNodeConfig_loop (env : Env) (input : GenerateConfigsInput)
    (existingConfigs : List (Int × String)) (nodeSet : CapabilitiesAwareNodeSet)
    (cfg : ChainCapabilityConfig) (cc : List (String × CapabilityConfig))
    (workers : List NodeMetadata)
    (hns : input.NodeSet = some nodeSet)
    (hcap : nodeSet.ChainCapabilities.bind (fun m => goMapGet m flag) = some (some cfg))
    (hcc : input.CapabilityConfigs = some cc)
    (hw : env.FindManyWithLabel input.NodesMetadata = .ok workers) :
    transformNodeConfig env input existingConfigs =
      match transformNodes env input nodeSet cfg workers 0 existingConfigs with
      | (m, some f) => ⟨none, some f, m⟩
      | (m, none) => ⟨some m, none, m⟩ := by
  unfold transformNodeConfig
  simp only [hns, hcap, hcc, hw]

/-- The error of a missing forwarder is never the text of the unknown-chain error. -/
theorem forwarderNotFoundError_ne (chainSelector chainID : Nat) :
    forwarderNotFoundError chainSelector ≠ unknownChainError chainID := by
  intro h
  have h2 := congrArg (fun s => (s.data.drop 15).head?) h
  simp [forwarderNotFoundError, unknownChainError, String.data_append] at h2

/-- The unknown-chain error is never the text of the missing-config error. -/
theorem unknownChainError_ne (chainID : Nat) (nodeIndex : Int) :
    unknownChainError chainID ≠ missingConfigError nodeIndex := by
  intro h
  have h2 := congrArg (fun s => s.data.head?) h
  simp [missingConfigError, unknownChainError, String.data_append] at h2

/-- C12 (counterexample). One worker node, the evm capability enabled for the chains 2 and
999999, chain 999999 unknown to the chain table, and no forwarder in the address book for
chain 2: the call fails with the error of the missing forwarder of chain 2, not with the
unknown-chain error. -/
theorem transformNodeConfig_unknown_chain_other_error :
    (999999 ∈ [2, 999999] ∧ sampleEnv.ChainByEvmChainID 999999 = none)
      ∧ transformNodeConfig sampleEnv (sampleInput [2, 999999] [sampleNode "0"])
          [(0, "stored")]
        = ⟨none, some (.err (forwarderNotFoundError 1002)), [(0, "stored")]⟩
      ∧ ∀ chainID, forwarderNotFoundError 1002 ≠ unknownChainError chainID := by
  refine ⟨⟨by decide, rfl⟩, ?_, fun c => forwarderNotFoundError_ne _ _⟩
  decide

/-- C12 (amended). With the evm capability enabled, at least one worker node and an
enabled chain ID that the chain table does not hold, the call fails with an error, returns
nil and leaves the caller's map as it was. The fragment of that chain is the unknown-chain
error whatever the address book and the labels of the node are (no lookup is made for it).
The call fails with that error when the capability configs are not nil, the index labels
of the first worker node are integers and the fragments of the chains enabled before that
chain assemble. -/
theorem transformNodeConfig_unknown_chain (env : Env) (input : GenerateConfigsInput)
    (existingConfigs : List (Int × String)) (nodeSet : CapabilitiesAwareNodeSet)
    (cfg : ChainCapabilityConfig) (node : NodeMetadata) (rest : List NodeMetadata)
    (chainID : Nat)
    (hns : input.NodeSet = some nodeSet)
    (hcap : nodeSet.ChainCapabilities.bind (fun m => goMapGet m flag) = some (some cfg))
    (hw : env.FindManyWithLabel input.NodesMetadata = .ok (node :: rest))
    (hc : chainID ∈ cfg.EnabledChains) (habs : env.ChainByEvmChainID chainID = none) :
    (∃ e, transformNodeConfig env input existingConfigs
        = ⟨none, some (.err e), existingConfigs⟩)
      ∧ (∀ (input' : GenerateConfigsInput) (nodeSet' : CapabilitiesAwareNodeSet)
          (nodeIdx : Nat) (nodeLabels : List Label),
          assembleFragment env input' nodeSet' nodeIdx nodeLabels chainID
            = .error (.err (unknownChainError chainID)))
      ∧ (∀ nodeIndex pre post preData, input.CapabilityConfigs ≠ none →
          nodeIndexOf env node.Labels 0 = .ok nodeIndex →
          cfg.EnabledChains = pre ++ chainID :: post →
          assembleFragments env input nodeSet 0 node.Labels pre = .ok preData →
          transformNodeConfig env input existingConfigs
            = ⟨none, some (.err (unknownChainError chainID)), existingConfigs⟩) := by
  refine ⟨?_, fun input' nodeSet' nodeIdx nodeLabels =>
    assembleFragment_unknown env input' nodeSet' nodeIdx nodeLabels chainID habs, ?_⟩
  · cases hcc : input.CapabilityConfigs with
    | none =>
      unfold transformNodeConfig
      simp only [hns, hcap, hcc]
      exact ⟨_, rfl⟩
    | some cc =>
      rw [transformNodeConfig_loop env input existingConfigs nodeSet cfg cc _ hns hcap hcc hw,
        transformNodes_cons]
      cases nodeIndexOf env node.Labels 0 with
      | error e => exact ⟨e, rfl⟩
      | ok nodeIndex =>
        obtain ⟨e, he⟩ := assembleFragments_unknown_fails env input nodeSet 0 node.Labels
          chainID habs cfg.EnabledChains hc
        simp only [he]
        exact ⟨e, rfl⟩
  · intro nodeIndex pre post preData hccne hidx hsplit hpre
    cases hcc : input.CapabilityConfigs with
    | none => exact absurd hcc hccne
    | some cc =>
      rw [transformNodeConfig_loop env input existingConfigs nodeSet cfg cc _ hns hcap hcc hw,
        transformNodes_cons]
      simp only [hidx, hsplit,
        assembleFragments_first_unknown env input nodeSet 0 node.Labels chainID habs post pre
          preData hpre]

/-- C12 (witness): the chains 1 and 999999 enabled, chain 1 with its forwarder. -/
theorem transformNodeConfig_unknown_chain_witness :
    transformNodeConfig sampleEnv (sampleInput [1, 999999] [sampleNode "0"]) [(0, "stored")]
      = ⟨none, some (.err (unknownChainError 999999)), [(0, "stored")]⟩ :=
  (transformNodeConfig_unknown_chain sampleEnv (sampleInput [1, 999999] [sampleNode "0"])
    [(0, "stored")] (sampleNodeSet [1, 999999]) { EnabledChains := [1, 999999] }
    (sampleNode "0") [] 999999 rfl rfl rfl (by decide) rfl).2.2 0 [1] [] _ (by decide) rfl rfl
    rfl

/-- C7. For a worker node that the node loop reaches (the worker nodes `pre` before it
being processed without failure, which leaves the map `m`), whose index is `i`, whose
fragments `data` assemble and whose stored configuration is present and decodes to a
document of fewer chain entries than there are fragments: `transformNodeConfig` returns
`nil` and the error of too few chain entries, naming the node index and both counts; the
patch step gives that error whatever the workflow builder is, so no chain entry is
patched and no workflow section is built; the node step leaves the caller's map as it
found it, so the map after the call is `m`, with the node's stored configuration as it
was, which is the caller's original entry when no earlier worker node has the index
`i`. -/
theorem transformNodeConfig_notEnough (env : Env) (input : GenerateConfigsInput)
    (existingConfigs m : List (Int × String)) (nodeSet : CapabilitiesAwareNodeSet)
    (cfg : ChainCapabilityConfig) (cc : List (String × CapabilityConfig))
    (pre : List NodeMetadata) (node : NodeMetadata) (rest : List NodeMetadata)
    (i : Int) (data : List evmData) (typedConfig : Config)
    (hns : input.NodeSet = some nodeSet)
    (hcap : nodeSet.ChainCapabilities.bind (fun m => goMapGet m flag) = some (some cfg))
    (hcc : input.CapabilityConfigs = some cc)
    (hw : env.FindManyWithLabel input.NodesMetadata = .ok (pre ++ node :: rest))
    (hpre : transformNodes env input nodeSet cfg pre 0 existingConfigs = (m, none))
    (hidx : nodeIndexOf env node.Labels 0 = .ok i)
    (hdata : assembleFragments env input nodeSet pre.length node.Labels cfg.EnabledChains
      = .ok data)
    (hpresent : ¬ ((m.length : Int) < intAdd i 1))
    (hdec : env.tomlUnmarshal ((goMapGet m i).getD "") = .ok typedConfig)
    (hlen : typedConfig.EVM.length < data.length) :
    transformNodeConfig env input existingConfigs
        = ⟨none, some (.err (notEnoughChainsError i data.length typedConfig.EVM.length)), m⟩
      ∧ (∀ buildWorkflow : evmData → Except String Workflow,
          patchDocument buildWorkflow i data typedConfig
            = .error (.err (notEnoughChainsError i data.length typedConfig.EVM.length)))
      ∧ transformNodeStep env.tomlUnmarshal env.tomlMarshal env.buildWorkflow i data m
          = (m, some (.err (notEnoughChainsError i data.length typedConfig.EVM.length)))
      ∧ goMapGet (transformNodeConfig env input existingConfigs).existingConfigs i
          = goMapGet m i
      ∧ ((∀ n ∈ pre, nodeIndexOf env n.Labels 0 ≠ .ok i) →
          goMapGet (transformNodeConfig env input existingConfigs).existingConfigs i
            = goMapGet existingConfigs i) := by
  have hstep := (transformNodeStep_notEnough env.tomlUnmarshal env.tomlMarshal
    env.buildWorkflow i data m typedConfig hpresent hdec hlen).2
  have hcall : transformNodeConfig env input existingConfigs
      = ⟨none, some (.err (notEnoughChainsError i data.length typedConfig.EVM.length)),
          m⟩ := by
    rw [transformNodeConfig_loop env input existingConfigs nodeSet cfg cc _ hns hcap hcc hw,
      transformNodes_append, hpre]
    simp only [Nat.zero_add]
    rw [transformNodes_cons]
    simp only [hidx, hdata, hstep]
  refine ⟨hcall, ?_, hstep, ?_, ?_⟩
  · intro buildWorkflow
    exact (transformNodeStep_notEnough env.tomlUnmarshal env.tomlMarshal buildWorkflow i
      data m typedConfig hpresent hdec hlen).1
  · rw [hcall]
  · intro hk
    rw [hcall]
    exact transformNodes_frame env input nodeSet cfg i pre 0 existingConfigs m none hpre hk

/-- C7 (witness): one worker node of index 0 with the chains 1, 3 and 4 enabled, whose
stored configuration decodes to two chain entries: the call fails with the error of too
few chain entries for 3 fragments and 2 entries, and the stored configuration stays. -/
theorem transformNodeConfig_notEnough_witness :
    transformNodeConfig sampleEnvTwoEntries
        (sampleInput [1, 3, 4] [sampleNodeThreeChains "0"]) [(0, "stored")]
        = ⟨none, some (.err (notEnoughChainsError 0 3 2)), [(0, "stored")]⟩
      ∧ goMapGet (transformNodeConfig sampleEnvTwoEntries
          (sampleInput [1, 3, 4] [sampleNodeThreeChains "0"]) [(0, "stored")]).existingConfigs
          0 = some "stored" := by
  have h := transformNodeConfig_notEnough sampleEnvTwoEntries
    (sampleInput [1, 3, 4] [sampleNodeThreeChains "0"]) [(0, "stored")] [(0, "stored")]
    (sampleNodeSet [1, 3, 4]) { EnabledChains := [1, 3, 4] } [] []
    (sampleNodeThreeChains "0") [] 0 _ ⟨[sampleEntry 1, sampleEntry 3], []⟩
    rfl rfl rfl rfl rfl rfl rfl (by decide) rfl (by decide)
  exact ⟨h.1, h.2.2.2.2 (fun n hn => absurd hn (List.not_mem_nil n))⟩

/-! ## The node index -/

/-- Without a label of key `IndexKey` the node index keeps its starting value. -/
theorem nodeIndexOf_no_label (env : Env) :
    ∀ (labels : List Label) (start : Int), (∀ l ∈ labels, l.Key ≠ env.IndexKey) →
    nodeIndexOf env labels start = .ok start := by
  intro labels
  induction labels with
  | nil =>
    intro start _
    rfl
  | cons l rest ih =>
    intro start h
    unfold nodeIndexOf
    rw [if_neg (h l (List.mem_cons_self _ _))]
    exact ih start (fun x hx => h x (List.mem_cons_of_mem _ hx))

/-- The node index is the value of the last label of key `IndexKey`, when the labels of
that key before it are integers too. -/
theorem nodeIndexOf_last (env : Env) (l : Label) (after : List Label) (i : Int)
    (hl : l.Key = env.IndexKey) (hafter : ∀ x ∈ after, x.Key ≠ env.IndexKey)
    (hi : env.Atoi l.Value = .ok i) :
    ∀ (before : List Label) (start : Int),
    (∀ x ∈ before, x.Key = env.IndexKey → ∃ j, env.Atoi x.Value = .ok j) →
    nodeIndexOf env (before ++ l :: after) start = .ok i := by
  intro before
  induction before with
  | nil =>
    intro start _
    simp only [List.nil_append]
    unfold nodeIndexOf
    rw [if_pos hl]
    simp only [hi]
    exact nodeIndexOf_no_label env after i hafter
  | cons x before ih =>
    intro start hbefore
    simp only [List.cons_append]
    unfold nodeIndexOf
    by_cases hx : x.Key = env.IndexKey
    · rw [if_pos hx]
      obtain ⟨j, hj⟩ := hbefore x (List.mem_cons_self _ _) hx
      simp only [hj]
      exact ih j (fun y hy => hbefore y (List.mem_cons_of_mem _ hy))
    · rw [if_neg hx]
      exact ih start (fun y hy => hbefore y (List.mem_cons_of_mem _ hy))

/-- A label of key `IndexKey` whose value is no integer makes the node index fail. -/
theorem nodeIndexOf_bad (env : Env) :
    ∀ (labels : List Label) (start : Int),
    (∃ l ∈ labels, l.Key = env.IndexKey ∧ ∃ e, env.Atoi l.Value = .error e) →
    ∃ e, nodeIndexOf env labels start
      = .error (errorsWrap e "failed to convert node index to int") := by
  intro labels
  induction labels with
  | nil =>
    intro start h
    obtain ⟨l, hl, _⟩ := h
    simp at hl
  | cons x rest ih =>
    intro start h
    obtain ⟨l, hl, hk, e, he⟩ := h
    unfold nodeIndexOf
    by_cases hx : x.Key = env.IndexKey
    · rw [if_pos hx]
      cases hax : env.Atoi x.Value with
      | error e' => exact ⟨e', rfl⟩
      | ok j =>
        simp only
        rcases List.mem_cons.mp hl with rfl | hrest
        · rw [he] at hax
          cases hax
        · exact ih j ⟨l, hrest, hk, e, he⟩
    · rw [if_neg hx]
      rcases List.mem_cons.mp hl with rfl | hrest
      · exact absurd hk hx
      · exact ih start ⟨l, hrest, hk, e, he⟩

/-- C19 (counterexample). One worker node with the index label 5, no stored configuration
(`len(existingConfigs) < 5 + 1`) and the unknown chain 999999 enabled: the call fails with
the unknown-chain error of the chain loop, which runs before the check of the index, not
with the missing-config error. -/
theorem transformNodeConfig_index_other_error :
    nodeIndexOf sampleEnv (sampleNode "5").Labels 0 = .ok 5
      ∧ (([] : List (Int × String)).length : Int) < intAdd 5 1
      ∧ transformNodeConfig sampleEnv (sampleInput [999999] [sampleNode "5"]) []
        = ⟨none, some (.err (unknownChainError 999999)), []⟩
      ∧ ∀ i, unknownChainError 999999 ≠ missingConfigError i := by
  refine ⟨rfl, by decide, by decide, fun i => unknownChainError_ne _ _⟩

/-- C19 (amended). For a worker node that the node loop reaches (the worker nodes `pre`
before it being processed without failure, which leaves the map `m`): its node index is 0
when it has no index label, and the integer value of its last index label when its index
labels are integers; an index label that is no integer makes the call fail; and when its
index is `i` and its fragments assemble, the call fails with the missing-config error if
`len(m) < i + 1` in Go `int` arithmetic, and a step that succeeds has decoded the entry of
key `i`, patched it and written the encoded result to the entry of key `i`. -/
theorem transformNodeConfig_nodeIndex (env : Env) (input : GenerateConfigsInput)
    (existingConfigs m : List (Int × String)) (nodeSet : CapabilitiesAwareNodeSet)
    (cfg : ChainCapabilityConfig) (cc : List (String × CapabilityConfig))
    (pre : List NodeMetadata) (node : NodeMetadata) (rest : List NodeMetadata)
    (hns : input.NodeSet = some nodeSet)
    (hcap : nodeSet.ChainCapabilities.bind (fun m => goMapGet m flag) = some (some cfg))
    (hcc : input.CapabilityConfigs = some cc)
    (hw : env.FindManyWithLabel input.NodesMetadata = .ok (pre ++ node :: rest))
    (hpre : transformNodes env input nodeSet cfg pre 0 existingConfigs = (m, none)) :
    ((∀ l ∈ node.Labels, l.Key ≠ env.IndexKey) → nodeIndexOf env node.Labels 0 = .ok 0)
      ∧ (∀ before l after i, node.Labels = before ++ l :: after →
          l.Key = env.IndexKey → (∀ x ∈ after, x.Key ≠ env.IndexKey) →
          (∀ x ∈ before, x.Key = env.IndexKey → ∃ j, env.Atoi x.Value = .ok j) →
          env.Atoi l.Value = .ok i → nodeIndexOf env node.Labels 0 = .ok i)
      ∧ ((∃ l ∈ node.Labels, l.Key = env.IndexKey ∧ ∃ e, env.Atoi l.Value = .error e) →
          ∃ e, transformNodeConfig env input existingConfigs
            = ⟨none, some (.err (errorsWrap e "failed to convert node index to int")), m⟩)
      ∧ (∀ i data, nodeIndexOf env node.Labels 0 = .ok i →
          assembleFragments env input nodeSet pre.length node.Labels cfg.EnabledChains
            = .ok data →
          (((m.length : Int) < intAdd i 1 →
              transformNodeConfig env input existingConfigs
                = ⟨none, some (.err (missingConfigError i)), m⟩)
            ∧ ∀ m', transformNodeStep env.tomlUnmarshal env.tomlMarshal env.buildWorkflow i
                  data m = (m', none) →
                (∃ typedConfig patched stringifiedConfig,
                  env.tomlUnmarshal ((goMapGet m i).getD "") = .ok typedConfig
                    ∧ patchDocument env.buildWorkflow i data typedConfig = .ok patched
                    ∧ env.tomlMarshal patched = .ok stringifiedConfig
                    ∧ m' = goMapSet m i stringifiedConfig)
                ∧ transformNodes env input nodeSet cfg (pre ++ node :: rest) 0
                    existingConfigs
                  = transformNodes env input nodeSet cfg rest (pre.length + 1) m')) := by
  have hcall : transformNodeConfig env input existingConfigs =
      match transformNodes env input nodeSet cfg (node :: rest) pre.length m with
      | (m1, some f) => ⟨none, some f, m1⟩
      | (m1, none) => ⟨some m1, none, m1⟩ := by
    rw [transformNodeConfig_loop env input existingConfigs nodeSet cfg cc _ hns hcap hcc hw,
      transformNodes_append, hpre]
    simp
  have hloop : transformNodes env input nodeSet cfg (pre ++ node :: rest) 0 existingConfigs
      = transformNodes env input nodeSet cfg (node :: rest) pre.length m := by
    rw [transformNodes_append, hpre]
    simp
  refine ⟨nodeIndexOf_no_label env node.Labels 0, ?_, ?_, ?_⟩
  · intro before l after i hsplit hl hafter hbefore hi
    rw [hsplit]
    exact nodeIndexOf_last env l after i hl hafter hi before 0 hbefore
  · intro hbad
    obtain ⟨e, he⟩ := nodeIndexOf_bad env node.Labels 0 hbad
    refine ⟨e, ?_⟩
    rw [hcall, transformNodes_cons]
    simp only [he]
  · intro i data hidx hdata
    constructor
    · intro hlen
      rw [hcall, transformNodes_cons]
      simp only [hidx, hdata, transformNodeStep_missing _ _ _ _ _ _ hlen]
    · intro m' hstep
      refine ⟨transformNodeStep_ok _ _ _ _ _ _ _ hstep, ?_⟩
      rw [hloop, transformNodes_cons]
      simp only [hidx, hdata, hstep]

/-- C19 (witness): one worker node with the index label 5, chain 1 enabled and no
stored configuration: the call fails with the missing-config error for the index 5. -/
theorem transformNodeConfig_nodeIndex_witness :
    transformNodeConfig sampleEnv (sampleInput [1] [sampleNode "5"]) []
      = ⟨none, some (.err (missingConfigError 5)), []⟩ :=
  ((transformNodeConfig_nodeIndex sampleEnv (sampleInput [1] [sampleNode "5"]) [] []
    (sampleNodeSet [1]) { EnabledChains := [1] } [] [] (sampleNode "5") [] rfl rfl rfl rfl
    rfl).2.2.2 5 _ rfl rfl).1 (by decide)

/-! ## Registration with the capability registry -/

/-- The loop of `registerWithV1` when every chain resolves and the method configs build:
one capability for each chain, in order, after those built so far. -/
theorem registerChains_ok (SelectorFromChainId : Nat → Except String Nat)
    (nodeSetInput : CapabilitiesAwareNodeSet) (selectorOf : Nat → Nat)
    (methodConfigs : List (String × Option CapabilityMethodConfig))
    (hm : getEvmMethodConfigs nodeSetInput = (some methodConfigs, none)) :
    ∀ (chains : List Nat) (capabilities : List DONCapabilityWithConfig),
    (∀ c ∈ chains, SelectorFromChainId c = .ok (selectorOf c)) →
    registerChains SelectorFromChainId nodeSetInput chains capabilities
      = (some (capabilities ++ chains.map (fun c =>
          { LabelledName := "evm:ChainSelector:" ++ toString (selectorOf c)
            Version := "1.0.0"
            MethodConfigs := some methodConfigs })), none) := by
  intro chains
  induction chains with
  | nil =>
    intro capabilities _
    simp [registerChains]
  | cons c rest ih =>
    intro capabilities hsel
    unfold registerChains
    simp only [hsel c (List.mem_cons_self _ _), hm]
    rw [ih _ (fun x hx => hsel x (List.mem_cons_of_mem _ hx))]
    have hname : "evm" ++ ":ChainSelector:" = "evm:ChainSelector:" := by decide
    simp [hname]

/-- The loop of `registerWithV1` when a chain does not resolve: an error and the nil
list. -/
theorem registerChains_unresolved (SelectorFromChainId : Nat → Except String Nat)
    (nodeSetInput : CapabilitiesAwareNodeSet) (chainID : Nat) (e : String)
    (he : SelectorFromChainId chainID = .error e) :
    ∀ (chains : List Nat) (capabilities : List DONCapabilityWithConfig),
    chainID ∈ chains →
    ∃ e', registerChains SelectorFromChainId nodeSetInput chains capabilities
      = (none, some (.err e')) := by
  intro chains
  induction chains with
  | nil =>
    intro _ h
    simp at h
  | cons c rest ih =>
    intro capabilities hmem
    unfold registerChains
    cases hs : SelectorFromChainId c with
    | error e1 => exact ⟨_, rfl⟩
    | ok s =>
      simp only
      rcases hg : getEvmMethodConfigs nodeSetInput with ⟨mc, err⟩
      cases err with
      | some e2 => exact ⟨_, rfl⟩
      | none =>
        simp only
        rcases List.mem_cons.mp hmem with rfl | hrest
        · rw [he] at hs
          cases hs
        · exact ih _ hrest

/-- The behaviour of `registerWithV1` for a nil node set, for a node set without an entry
for the evm capability, and for a node set with an entry that is not nil: one capability
for each enabled chain, in order, when every chain resolves and the method configs build,
and an error with the nil list when a chain does not resolve. -/
theorem registerWithV1_entry (SelectorFromChainId : Nat → Except String Nat) :
    registerWithV1 SelectorFromChainId none = (none, some (.err "node set input is nil"))
      ∧ (∀ nodeSetInput : CapabilitiesAwareNodeSet,
          (nodeSetInput.ChainCapabilities = none ∨
            ∃ m, nodeSetInput.ChainCapabilities = some m ∧ flag ∉ goMapKeys m) →
          registerWithV1 SelectorFromChainId (some nodeSetInput) = (none, none))
      ∧ (∀ (nodeSetInput : CapabilitiesAwareNodeSet) m cfg (selectorOf : Nat → Nat)
          methodConfigs,
          nodeSetInput.ChainCapabilities = some m → goMapGet m flag = some (some cfg) →
          (∀ c ∈ cfg.EnabledChains, SelectorFromChainId c = .ok (selectorOf c)) →
          getEvmMethodConfigs nodeSetInput = (some methodConfigs, none) →
          registerWithV1 SelectorFromChainId (some nodeSetInput)
            = (some (cfg.EnabledChains.map (fun c =>
                { LabelledName := "evm:ChainSelector:" ++ toString (selectorOf c)
                  Version := "1.0.0"
                  MethodConfigs := some methodConfigs })), none))
      ∧ (∀ (nodeSetInput : CapabilitiesAwareNodeSet) m cfg chainID e,
          nodeSetInput.ChainCapabilities = some m → goMapGet m flag = some (some cfg) →
          chainID ∈ cfg.EnabledChains → SelectorFromChainId chainID = .error e →
          ∃ e', registerWithV1 SelectorFromChainId (some nodeSetInput)
            = (none, some (.err e'))) := by
  refine ⟨rfl, ?_, ?_, ?_⟩
  · rintro nodeSetInput (h | ⟨m, hm, hk⟩)
    · unfold registerWithV1
      simp only [h]
    · unfold registerWithV1
      simp only [hm, (goMapGet_eq_none m flag).mpr hk]
  · intro nodeSetInput m cfg selectorOf methodConfigs hm hcfg hsel hmc
    unfold registerWithV1
    simp only [hm, hcfg]
    rw [registerChains_ok SelectorFromChainId nodeSetInput selectorOf methodConfigs hmc _ _ hsel]
    simp
  · intro nodeSetInput m cfg chainID e hm hcfg hmem he
    unfold registerWithV1
    simp only [hm, hcfg]
    exact registerChains_unresolved SelectorFromChainId nodeSetInput chainID e he _ _ hmem

/-- C17 (the failing input). For a node set whose map of chain capabilities holds the key
of the evm capability with a nil pointer, `registerWithV1` panics, while
`transformNodeConfig` takes the same node set as one without the evm capability and
returns the given map and no error. -/
theorem registerWithV1_nil_entry :
    registerWithV1 (fun c => .ok (c + 1000)) (some sampleNodeSetNilEntry)
        = (none, some .panic)
      ∧ transformNodeConfig sampleEnv
          { NodeSet := some sampleNodeSetNilEntry, CapabilityConfigs := some [],
            NodesMetadata := [sampleNode "0"], AddressBook := fun _ => .ok [] }
          [(0, "stored")]
        = ⟨some [(0, "stored")], none, [(0, "stored")]⟩ := by
  constructor
  · rfl
  · rfl

/-! ## The order of the fragments -/

/-- Patching the first entry of a chain ID leaves the chain IDs of the entries. -/
theorem patchFirst_ids (id : Int) (w : Workflow) (evm : List EVMConfig) :
    (patchFirst id w evm).map (fun e => e.ChainID) = evm.map (fun e => e.ChainID) := by
  induction evm with
  | nil => rfl
  | cons e rest ih =>
    unfold patchFirst
    by_cases h : e.ChainID = some id
    · simp [h, EVMConfig.patched]
    · simp [h, ih]

/-- Whether the scan reaches an entry of a chain ID is read from the chain IDs alone. -/
theorem reachesChain_congr (id : Int) : ∀ (evm evm' : List EVMConfig),
    evm.map (fun e => e.ChainID) = evm'.map (fun e => e.ChainID) →
    reachesChain id evm = reachesChain id evm' := by
  intro evm
  induction evm with
  | nil =>
    intro evm' h
    cases evm' with
    | nil => rfl
    | cons _ _ => simp at h
  | cons e rest ih =>
    intro evm' h
    cases evm' with
    | nil => simp at h
    | cons e' rest' =>
      simp only [List.map_cons, List.cons.injEq] at h
      unfold reachesChain
      rw [← h.1, ih rest' h.2]

/-- Patching the first entries of two different chain IDs, in either order. -/
theorem patchFirst_comm (a b : Int) (wa wb : Workflow) (hab : a ≠ b)
    (evm : List EVMConfig) :
    patchFirst a wa (patchFirst b wb evm) = patchFirst b wb (patchFirst a wa evm) := by
  induction evm with
  | nil => rfl
  | cons e rest ih =>
    by_cases ha : e.ChainID = some a
    · have hb : ¬ e.ChainID = some b := fun hb => hab (Option.some.inj (ha.symm.trans hb))
      have hpa : ¬ (e.patched wa).ChainID = some b := hb
      have hpa' : (e.patched wa).ChainID = some a := ha
      rw [patchFirst, if_neg hb, patchFirst, if_pos ha, patchFirst, if_pos ha, patchFirst,
        if_neg hpa]
    · by_cases hb : e.ChainID = some b
      · have hpb : ¬ (e.patched wb).ChainID = some a := ha
        rw [patchFirst, if_pos hb, patchFirst, if_neg hpb, patchFirst, if_neg ha, patchFirst,
          if_pos hb]
      · rw [patchFirst, if_neg hb, patchFirst, if_neg ha, patchFirst, if_neg ha, patchFirst,
          if_neg hb, ih]

/-- A run of the `INNER` loop over a non-empty entry list that does not panic is for a
chain ID within `int64`. -/
theorem patchChainEntries_cons_range {buildWorkflow : evmData → Except String Workflow}
    {d : evmData} {e : EVMConfig} {rest : List EVMConfig} {r : Bool × List EVMConfig}
    (h : patchChainEntries buildWorkflow d (e :: rest) = .ok r) :
    d.ChainID ≤ 2 ^ 63 - 1 := by
  unfold patchChainEntries at h
  by_contra hgt
  have hm : MustSafeInt64 d.ChainID = none := by
    unfold MustSafeInt64
    rw [if_pos (by omega)]
  simp [hm] at h

/-- The `INNER` loop finds the chain exactly when the fragment's chain ID is within
`int64`, the scan reaches an entry that has it before any entry without a chain ID, and
the workflow section builds; the entries it leaves are the given ones with the first
entry of that chain ID patched. -/
theorem patchChainEntries_true_iff {buildWorkflow : evmData → Except String Workflow}
    {d : evmData} (evm evm' : List EVMConfig) :
    patchChainEntries buildWorkflow d evm = .ok (true, evm') ↔
      d.ChainID ≤ 2 ^ 63 - 1 ∧ reachesChain d.ChainID evm = true
        ∧ ∃ w, buildWorkflow d = .ok w ∧ evm' = patchFirst d.ChainID w evm := by
  constructor
  · intro h
    have hrange : d.ChainID ≤ 2 ^ 63 - 1 := by
      cases evm with
      | nil =>
        have := (patchChainEntries_nil_ok h).1
        simp at this
      | cons e rest => exact patchChainEntries_cons_range h
    refine ⟨hrange, ?_⟩
    induction evm generalizing evm' with
    | nil =>
      have := (patchChainEntries_nil_ok h).1
      simp at this
    | cons e rest ih =>
      rcases patchChainEntries_cons_ok h with ⟨he, _, w, hw, rfl⟩ | ⟨he, hnil, rest', hr, rfl⟩
      · refine ⟨?_, w, hw, by simp [patchFirst, he]⟩
        unfold reachesChain
        simp [he]
      · obtain ⟨hreach, w, hw, hrest⟩ := ih rest' hr
        refine ⟨?_, w, hw, by simp [patchFirst, he, hrest]⟩
        unfold reachesChain
        cases hc : e.ChainID with
        | none => exact absurd hc hnil
        | some c =>
          have hne : ¬ c = (d.ChainID : Int) := fun heq => he (by rw [hc, heq])
          simp only [hne, if_false]
          exact hreach
  · rintro ⟨hrange, hreach, w, hw, rfl⟩
    induction evm with
    | nil => simp [reachesChain] at hreach
    | cons e rest ih =>
      unfold reachesChain at hreach
      unfold patchChainEntries
      simp only [MustSafeInt64_of_le hrange]
      cases hc : e.ChainID with
      | none => simp [hc] at hreach
      | some c =>
        simp only [hc] at hreach
        simp only
        by_cases he : c = (d.ChainID : Int)
        · rw [if_pos he]
          simp only [hw]
          rw [patchFirst, if_pos (by rw [hc, he])]
        · rw [if_neg he] at hreach
          rw [if_neg he, ih hreach]
          rw [patchFirst, if_neg (by rw [hc]; exact fun h => he (Option.some.inj h))]

/-- The loop over the fragments, at its first fragment. -/
theorem patchFragments_cons_iff {buildWorkflow : evmData → Except String Workflow}
    {nodeIndex : Int} (d : evmData) (ds : List evmData) (evm out : List EVMConfig) :
    patchFragments buildWorkflow nodeIndex (d :: ds) evm = .ok out ↔
      ∃ evm1, patchChainEntries buildWorkflow d evm = .ok (true, evm1)
        ∧ patchFragments buildWorkflow nodeIndex ds evm1 = .ok out := by
  constructor
  · exact patchFragments_cons_ok
  · rintro ⟨evm1, h1, h2⟩
    unfold patchFragments
    simp only [h1]
    exact h2

/-- Two fragments of different chain IDs at the head of the loop, in either order. -/
theorem patchFragments_swap {buildWorkflow : evmData → Except String Workflow}
    {nodeIndex : Int} (x y : evmData) (l : List evmData) (evm out : List EVMConfig)
    (hxy : x.ChainID ≠ y.ChainID)
    (h : patchFragments buildWorkflow nodeIndex (x :: y :: l) evm = .ok out) :
    patchFragments buildWorkflow nodeIndex (y :: x :: l) evm = .ok out := by
  obtain ⟨e1, hx, h1⟩ := (patchFragments_cons_iff x (y :: l) evm out).mp h
  obtain ⟨e2, hy, h2⟩ := (patchFragments_cons_iff y l e1 out).mp h1
  obtain ⟨hxr, hxm, wx, hwx, rfl⟩ := (patchChainEntries_true_iff evm e1).mp hx
  obtain ⟨hyr, hym, wy, hwy, rfl⟩ := (patchChainEntries_true_iff _ e2).mp hy
  rw [reachesChain_congr _ _ evm (patchFirst_ids _ _ _)] at hym
  have hne : (y.ChainID : Int) ≠ (x.ChainID : Int) := by
    intro heq
    exact hxy (by exact_mod_cast heq.symm)
  refine (patchFragments_cons_iff y (x :: l) evm out).mpr
    ⟨patchFirst y.ChainID wy evm,
      (patchChainEntries_true_iff evm _).mpr ⟨hyr, hym, wy, hwy, rfl⟩, ?_⟩
  refine (patchFragments_cons_iff x l _ out).mpr
    ⟨patchFirst x.ChainID wx (patchFirst y.ChainID wy evm),
      (patchChainEntries_true_iff _ _).mpr
        ⟨hxr, by rw [reachesChain_congr _ _ evm (patchFirst_ids _ _ _)]; exact hxm,
          wx, hwx, rfl⟩, ?_⟩
  rw [patchFirst_comm _ _ wx wy hne.symm]
  exact h2

/-- The loop over fragments of pairwise distinct chain IDs gives the same entries for
every order of the fragments. -/
theorem patchFragments_perm {buildWorkflow : evmData → Except String Workflow}
    {nodeIndex : Int} {data data' : List evmData} (hperm : data.Perm data') :
    (data.map (fun d => d.ChainID)).Nodup →
    ∀ (evm out : List EVMConfig),
      patchFragments buildWorkflow nodeIndex data evm = .ok out ↔
        patchFragments buildWorkflow nodeIndex data' evm = .ok out := by
  induction hperm with
  | nil =>
    intro _ evm out
    exact Iff.rfl
  | cons x _ ih =>
    intro hnd evm out
    simp only [List.map_cons, List.nodup_cons] at hnd
    rw [patchFragments_cons_iff, patchFragments_cons_iff]
    constructor
    · rintro ⟨e1, h1, h2⟩
      exact ⟨e1, h1, (ih hnd.2 e1 out).mp h2⟩
    · rintro ⟨e1, h1, h2⟩
      exact ⟨e1, h1, (ih hnd.2 e1 out).mpr h2⟩
  | swap x y l =>
    intro hnd evm out
    simp only [List.map_cons, List.nodup_cons, List.mem_cons, not_or] at hnd
    have hyx : y.ChainID ≠ x.ChainID := hnd.1.1
    exact ⟨patchFragments_swap y x l evm out hyx,
      patchFragments_swap x y l evm out (Ne.symm hyx)⟩
  | trans h1 _ ih1 ih2 =>
    intro hnd evm out
    have hnd2 := (List.Perm.nodup_iff (List.Perm.map (fun d => d.ChainID) h1)).mp hnd
    exact (ih1 hnd evm out).trans (ih2 hnd2 evm out)

/-- C18. For a document and two orders of the same fragments, of pairwise distinct chain
IDs: the patch step returns a document for the one order exactly when it returns that
same document for the other; so both orders succeed, with one result, or both fail. -/
theorem patchDocument_order_independent (buildWorkflow : evmData → Except String Workflow)
    (nodeIndex : Int) (data data' : List evmData) (typedConfig : Config)
    (hperm : data.Perm data') (hnd : (data.map (fun d => d.ChainID)).Nodup) :
    (∀ out, patchDocument buildWorkflow nodeIndex data typedConfig = .ok out ↔
        patchDocument buildWorkflow nodeIndex data' typedConfig = .ok out)
      ∧ ((∃ out, patchDocument buildWorkflow nodeIndex data typedConfig = .ok out) ↔
          ∃ out, patchDocument buildWorkflow nodeIndex data' typedConfig = .ok out)
      ∧ (∀ out, patchFragments buildWorkflow nodeIndex data typedConfig.EVM = .ok out ↔
          patchFragments buildWorkflow nodeIndex data' typedConfig.EVM = .ok out) := by
  have hloop := @patchFragments_perm buildWorkflow nodeIndex data data' hperm hnd
    typedConfig.EVM
  have hdoc : ∀ out, patchDocument buildWorkflow nodeIndex data typedConfig = .ok out ↔
      patchDocument buildWorkflow nodeIndex data' typedConfig = .ok out := by
    intro out
    unfold patchDocument
    rw [hperm.length_eq]
    by_cases hlen : typedConfig.EVM.length < data'.length
    · simp [hlen]
    · simp only [hlen, if_false]
      cases h1 : patchFragments buildWorkflow nodeIndex data typedConfig.EVM with
      | error f =>
        cases h2 : patchFragments buildWorkflow nodeIndex data' typedConfig.EVM with
        | error f' => simp
        | ok evm2 =>
          rw [(hloop evm2).mpr h2] at h1
          cases h1
      | ok evm1 =>
        rw [(hloop evm1).mp h1]
  refine ⟨hdoc, ?_, hloop⟩
  constructor
  · rintro ⟨out, h⟩
    exact ⟨out, (hdoc out).mp h⟩
  · rintro ⟨out, h⟩
    exact ⟨out, (hdoc out).mpr h⟩

/-- C18 (witness): the fragments 1 and 2 in both orders, on the entries 2, 1, 1. -/
theorem patchDocument_order_independent_witness :
    ∃ out, patchDocument sampleBuild 0 [sampleFragment 2, sampleFragment 1]
        ⟨[sampleEntry 2, sampleEntry 1, sampleEntry 1], []⟩ = .ok out
      ∧ patchDocument sampleBuild 0 [sampleFragment 1, sampleFragment 2]
        ⟨[sampleEntry 2, sampleEntry 1, sampleEntry 1], []⟩ = .ok out :=
  ⟨_, ((patchDocument_order_independent sampleBuild 0 [sampleFragment 1, sampleFragment 2]
      [sampleFragment 2, sampleFragment 1] ⟨[sampleEntry 2, sampleEntry 1, sampleEntry 1], []⟩
      (List.Perm.swap _ _ _) (by decide)).1 _).mp rfl, rfl⟩

end Evm
